import Mathlib

/-! rtail: size-specification parser and fetch protocol

A shallow embedding of `src/main.go` (`sizeSuffixes`, `findSizeSuffix`,
`parseByteSize`) and `src/client.go` (`client`, `fetchState`, `initFetch`,
`max`, `fetch`, `doRequest`, `dumpHeaders`, `parseHttpTime`).

Conventions of the embedding:

* Go `int64` values are `Int`s kept in range by `wrap64` after every
  arithmetic operation (two's complement wrap-around, as in Go).
* Go strings handed to the parser are `List Char`.  The parser only ever
  indexes the string up to the first rune that is not an ASCII digit or `+`;
  every rune before that position is one byte wide, so rune positions and
  byte positions coincide wherever the code uses them.
* Library behaviour that the repository does not contain (URL validation in
  `http.NewRequest`, the round trip of `http.Client.Do`, `time.Parse`,
  `time.Format`, the basic-auth encoding) is a field of `Env`.
* `tail` is run against the instants at which its calls of `fetch` start and
  finish; `os.Create` and the `time.Ticker` of the polling loop follow their
  documented behaviour (`Disk.Create`, `tickWake`).
-/

namespace Rtail

/-! ## 64-bit integers -/

/-- Reduction of an integer to the range of a Go `int64` (two's complement). -/
def wrap64 (x : Int) : Int :=
  (x + 9223372036854775808) % 18446744073709551616 - 9223372036854775808

/-- The range of a Go `int64`. -/
def inInt64 (x : Int) : Prop :=
  -9223372036854775808 ≤ x ∧ x ≤ 9223372036854775807

instance (x : Int) : Decidable (inInt64 x) := by
  unfold inInt64; exact inferInstance

deriving instance DecidableEq for Except

/-! ## `main.go`: the size-specification parser -/

/-- The table `sizeSuffixes`: suffix and multiplier, in source order. -/
def sizeSuffixes : List (List Char × Int) :=
  [ ([], 1),
    (['b'], 512),
    (['k', 'B'], 1000),
    (['K', 'B'], 1000),
    (['K'], 1024),
    (['K', 'i', 'B'], 1024),
    (['m', 'B'], 1000 * 1000),
    (['M', 'B'], 1000 * 1000),
    (['M'], 1024 * 1024),
    (['M', 'i', 'B'], 1024 * 1024),
    (['g', 'B'], 1000 * 1000 * 1000),
    (['G', 'B'], 1000 * 1000 * 1000),
    (['G'], 1024 * 1024 * 1024),
    (['G', 'i', 'B'], 1024 * 1024 * 1024) ]

/-- The loop of `findSizeSuffix` over a table: the multiplier of the first
entry whose suffix equals the argument, `0` when there is none. -/
def findIn : List (List Char × Int) → List Char → Int
  | [], _ => 0
  | ss :: rest, suffix => if ss.1 = suffix then ss.2 else findIn rest suffix

/-- Go `findSizeSuffix`: `0` if the suffix cannot be found, otherwise the
found suffix's multiplier. -/
def findSizeSuffix (suffix : List Char) : Int :=
  findIn sizeSuffixes suffix

/-- The test `'0' <= c && c <= '9'` on a rune. -/
def isDigit (c : Char) : Bool :=
  decide (48 ≤ c.toNat) && decide (c.toNat ≤ 57)

/-- The `for i, c := range s` loop of `parseByteSize`, from rune position `i`
with accumulator `size`; `sIndex` is the value the variable holds on entry.
Returns the final `size` and `sIndex`. -/
def digitLoop : List Char → Nat → Int → Nat → Int × Nat
  | [], _, size, sIndex => (size, sIndex)
  | c :: cs, i, size, sIndex =>
    if isDigit c then
      digitLoop cs (i + 1) (wrap64 (size * 10 + ((c.toNat : Int) - 48))) sIndex
    else
      (size, i)

/-- The error of `parseByteSize`; `arg` is the string that the message
quotes (the input after the removal of a leading `+`). -/
structure ParseError where
  arg : List Char
  deriving DecidableEq, Repr

/-- Go `parseByteSize`: value and `plus` flag, or the parse error. -/
def parseByteSize (s : List Char) : Except ParseError (Int × Bool) :=
  let sIndex := s.length
  let hasPlus : Bool := decide (sIndex > 0) && decide (s.head? = some '+')
  let s1 := if hasPlus then s.drop 1 else s
  let sIndex1 := if hasPlus then sIndex - 1 else sIndex
  let plus := hasPlus
  let r := digitLoop s1 0 0 sIndex1
  let size := r.1
  let sIndex2 := r.2
  let m := findSizeSuffix (s1.drop sIndex2)
  if sIndex2 = 0 ∨ m = 0 then
    Except.error ⟨s1⟩
  else
    Except.ok (wrap64 (size * m), plus)

/-- Whether a parse succeeded. -/
def isOk {ε α : Type} : Except ε α → Bool
  | Except.ok _ => true
  | Except.error _ => false

/-- The number a string of decimal digits denotes (mathematical value, no
machine arithmetic). -/
def numericValue (d : List Char) : Int :=
  d.foldl (fun acc c => acc * 10 + ((c.toNat : Int) - 48)) 0

/-! ## Library models used by `client.go` -/

/-- Go `time.Time`, as the instant it denotes: the offset, in nanoseconds,
from the zero time instant (January 1, year 1, 00:00:00 UTC).  The zone a
`time.Time` also keeps is not represented: `IsZero` and `Before` do not look
at it, and the text `time.Format` prints is determined here only up to the
zone. -/
structure Time where
  instant : Int
  deriving DecidableEq, Repr

/-- The zero value `time.Time{}`. -/
def Time.zero : Time := ⟨0⟩

/-- Go `Time.IsZero`. -/
def Time.IsZero (t : Time) : Bool := decide (t.instant = 0)

/-- Go `Time.Before`: strictly earlier. -/
def Time.Before (t u : Time) : Bool := decide (t.instant < u.instant)

/-- Go `http.Header` restricted to one value per (canonical) key. -/
structure Header where
  entries : List (String × String)
  deriving DecidableEq, Repr

/-- The empty header of a fresh request. -/
def Header.empty : Header := ⟨[]⟩

/-- Go `Header.Set`: the entry for `key` is replaced by `value`. -/
def Header.Set (h : Header) (key value : String) : Header :=
  ⟨(key, value) :: h.entries.filter (fun e => e.1 ≠ key)⟩

/-- The value stored for `key`, if the header has that key. -/
def Header.find (h : Header) (key : String) : Option String :=
  h.entries.lookup key

/-- Go `Header.Get`: the value for `key`, the empty string when absent. -/
def Header.Get (h : Header) (key : String) : String :=
  (h.find key).getD ""

/-- A byte of a body or of the output. -/
abbrev Byte := Nat

/-- A response body as `io.Copy` experiences it: the bytes the reader
delivers and the error that ends the read (`none` for a clean end). -/
structure Body where
  bytes : List Byte
  readErr : Option String
  deriving DecidableEq, Repr

/-- The request handed to the HTTP client. -/
structure Request where
  method : String
  url : String
  header : Header
  deriving DecidableEq, Repr

/-- The fields of `http.Response` the code reads. -/
structure Response where
  status : String
  statusCode : Int
  header : Header
  body : Body
  deriving DecidableEq, Repr

/-- The output `io.Writer`: what has been written, and when the writer
fails: `some (k, e)` accepts `k` further bytes and then fails with `e`. -/
structure Sink where
  written : List Byte
  limit : Option (Nat × String)
  deriving DecidableEq, Repr

/-- Go `io.Copy(out, body)`: number of bytes written, the error, and the
writer afterwards. -/
def ioCopy (out : Sink) (body : Body) : Nat × Option String × Sink :=
  match out.limit with
  | none => (body.bytes.length, body.readErr, ⟨out.written ++ body.bytes, none⟩)
  | some (k, e) =>
    if k < body.bytes.length then
      (k, some e, ⟨out.written ++ body.bytes.take k, some (0, e)⟩)
    else
      (body.bytes.length, body.readErr,
        ⟨out.written ++ body.bytes, some (k - body.bytes.length, e)⟩)

/-- Go `strconv.FormatInt(i, 10)`. -/
def FormatInt (i : Int) : String :=
  if i < 0 then "-" ++ Nat.repr (-i).toNat else Nat.repr i.toNat

/-- Go `strconv.ParseInt(s, 10, 64)`: the value, or `none` on a syntax or
range error. -/
def ParseInt (s : List Char) : Option Int :=
  match s with
  | [] => none
  | c :: rest =>
    let neg : Bool := decide (c = '-')
    let digits := if c = '+' ∨ c = '-' then rest else s
    if digits = [] ∨ digits.all isDigit = false then none
    else
      let un := numericValue digits
      if neg then
        if un > 9223372036854775808 then none else some (-un)
      else
        if un ≥ 9223372036854775808 then none else some un

/-- One entry of the diagnostic stream written by `dumpHeaders`. -/
inductive DumpItem where
  | request (method url : String) (header : Header)
  | response (status : String) (header : Header)
  deriving DecidableEq, Repr

/-- What is outside the program: the requests sent so far and the
diagnostic stream. -/
structure World where
  requests : List Request
  stderr : List DumpItem
  deriving DecidableEq, Repr

/-- Library behaviour the program depends on.
`newRequestErr method url` is the error of `http.NewRequest` (`none` when
the request can be constructed); `basicAuth user password` is the header
value set by `SetBasicAuth`; `Do sent req` is the outcome of
`http.Client.Do` for `req` after the requests `sent` (a response, or an
error); `errResponse sent req` is the response that `Do` returns together
with an error, if any (a failed redirect policy returns the last response
with the error; a transport failure returns none); the others are
`time.Format` and `time.Parse` for the three layouts. -/
structure Env where
  newRequestErr : String → String → Option String
  basicAuth : String → String → String
  Do : List Request → Request → Except String Response
  errResponse : List Request → Request → Option Response
  formatRFC1123 : Time → String
  parseRFC1123 : String → Except String Time
  parseRFC850 : String → Except String Time
  parseANSIC : String → Except String Time

/-- How a Go call ends: normally, with an `error`, or in a run-time panic. -/
inductive Outcome (α : Type) where
  | ok (a : α)
  | error (msg : String)
  | panic
  deriving DecidableEq, Repr

/-! ## `client.go` -/

/-- Go `client` (the `*http.Client` field is `Env.Do`). -/
structure client where
  user : String
  password : String
  userAgent : String
  outputFile : String
  byteOffset : Int
  byteOffsetFromStart : Bool
  tick : Int
  dumpHeaders : Bool
  deriving DecidableEq, Repr

/-- Go `isFollowMode`. -/
def client.isFollowMode (c : client) : Bool := decide (c.tick > 0)

/-- Go `fetchState`. -/
structure fetchState where
  resource : String
  offset : Int
  lastModified : Time
  expires : Time
  deriving DecidableEq, Repr

/-- Go `max`. -/
def max (a b : Int) : Int :=
  if a > b then a else b

/-- Go `formatHttpTime`. -/
def formatHttpTime (env : Env) (t : Time) : String :=
  env.formatRFC1123 t

/-- Go `parseHttpTime`. -/
def parseHttpTime (env : Env) (s : String) : Except String Time :=
  match env.parseRFC1123 s with
  | Except.ok t => Except.ok t
  | Except.error _ =>
    match env.parseRFC850 s with
    | Except.ok t => Except.ok t
    | Except.error _ => env.parseANSIC s

/-- The request `doRequest` constructs and decorates before it is sent. -/
def buildRequest (env : Env) (c : client) (method : String) (s : fetchState) : Request :=
  let h0 := Header.empty
  let h1 := if c.user ≠ "" then h0.Set "Authorization" (env.basicAuth c.user c.password) else h0
  let h2 := if c.userAgent ≠ "" then h1.Set "User-Agent" c.userAgent else h1
  let h3 := if !s.lastModified.IsZero then
      h2.Set "If-Modified-Since" (formatHttpTime env s.lastModified) else h2
  let h4 := if s.offset > 0 then h3.Set "Range" ("bytes=" ++ FormatInt s.offset ++ "-") else h3
  ⟨method, s.resource, h4⟩

/-- Go `dumpHeaders(req, resp)` with a response. -/
def dumpHeaders (req : Request) (resp : Response) (w : World) : World :=
  { w with stderr := w.stderr ++
      [DumpItem.request req.method req.url req.header,
       DumpItem.response resp.status resp.header] }

/-- Go `dumpHeaders(req, nil)`: the request part is written, then reading
`resp.Status` dereferences a nil pointer. -/
def dumpHeadersNil (req : Request) (w : World) : World :=
  { w with stderr := w.stderr ++ [DumpItem.request req.method req.url req.header] }

/-- Go `doRequest`. -/
def doRequest (env : Env) (c : client) (method : String) (s : fetchState) (w : World) :
    Outcome Response × World :=
  match env.newRequestErr method s.resource with
  | some e => (Outcome.error e, w)
  | none =>
    let req := buildRequest env c method s
    let r := env.Do w.requests req
    let w1 : World := { w with requests := w.requests ++ [req] }
    match r with
    | Except.ok resp =>
      if c.dumpHeaders then (Outcome.ok resp, dumpHeaders req resp w1)
      else (Outcome.ok resp, w1)
    | Except.error e =>
      if c.dumpHeaders then
        match env.errResponse w.requests req with
        | some resp => (Outcome.error e, dumpHeaders req resp w1)
        | none => (Outcome.panic, dumpHeadersNil req w1)
      else (Outcome.error e, w1)

/-- Go `initFetch`: the returned error, the state written through `s`, and
the world afterwards. -/
def initFetch (env : Env) (c : client) (s : fetchState) (resource : String) (w : World) :
    Outcome Unit × fetchState × World :=
  let s1 : fetchState :=
    { s with resource := resource, offset := 0, lastModified := Time.zero, expires := Time.zero }
  if c.byteOffsetFromStart then
    (Outcome.ok (), { s1 with offset := c.byteOffset }, w)
  else
    match doRequest env c "HEAD" s1 w with
    | (Outcome.error e, w1) => (Outcome.error e, s1, w1)
    | (Outcome.panic, w1) => (Outcome.panic, s1, w1)
    | (Outcome.ok resp, w1) =>
      let cl := resp.header.Get "Content-Length"
      if cl ≠ "" then
        match ParseInt cl.toList with
        | some size => (Outcome.ok (), { s1 with offset := max (wrap64 (size - c.byteOffset)) 0 }, w1)
        | none => (Outcome.ok (), s1, w1)
      else
        (Outcome.ok (), s1, w1)

/-- The result of one call of `fetch`: the returned error, the state, the
writer and the world afterwards. -/
structure FetchResult where
  err : Outcome Unit
  state : fetchState
  out : Sink
  world : World
  deriving DecidableEq, Repr

/-- The header-driven update of a timestamp on a 2xx response: the parsed
header value when the header is present and parses, the old value
otherwise. -/
def updateTime (env : Env) (resp : Response) (key : String) (old : Time) : Time :=
  let v := resp.header.Get key
  if v ≠ "" then
    match parseHttpTime env v with
    | Except.ok t => t
    | Except.error _ => old
  else old

/-- Go `fetch`; `now` is the reading of `time.Now()`. -/
def fetch (env : Env) (c : client) (now : Time) (s : fetchState) (out : Sink) (w : World) :
    FetchResult :=
  if !s.expires.IsZero && now.Before s.expires then
    ⟨Outcome.ok (), s, out, w⟩
  else
    match doRequest env c "GET" s w with
    | (Outcome.error e, w1) => ⟨Outcome.error e, s, out, w1⟩
    | (Outcome.panic, w1) => ⟨Outcome.panic, s, out, w1⟩
    | (Outcome.ok resp, w1) =>
      if resp.statusCode ≥ 200 ∧ resp.statusCode < 300 then
        let s1 := { s with lastModified := updateTime env resp "Last-Modified" s.lastModified }
        let s2 := { s1 with expires := updateTime env resp "Expires" s1.expires }
        let r := ioCopy out resp.body
        let s3 := { s2 with offset := wrap64 (s2.offset + (r.1 : Int)) }
        match r.2.1 with
        | none => ⟨Outcome.ok (), s3, r.2.2, w1⟩
        | some e => ⟨Outcome.error e, s3, r.2.2, w1⟩
      else if resp.statusCode = 304 then
        ⟨Outcome.ok (), s, out, w1⟩
      else
        ⟨Outcome.error resp.status, s, out, w1⟩

/-- The successive calls of `fetch` made by the polling loop of `tail`, one
per clock reading, up to and including the first call that does not
succeed: the result of each call. -/
def fetchTrace (env : Env) (c : client) :
    List Time → fetchState → Sink → World → List FetchResult
  | [], _, _, _ => []
  | now :: rest, s, out, w =>
    let r := fetch env c now s out w
    r :: (match r.err with
          | Outcome.ok _ => fetchTrace env c rest r.state r.out r.world
          | _ => [])

/-- The writer after the last call of a trace (the initial writer when no
call was made). -/
def finalOut (tr : List FetchResult) (out : Sink) : Sink :=
  match tr.getLast? with
  | some r => r.out
  | none => out

/-! ## `client.go`: `tail` -/

/-- The file system as `os.Create` and the created file see it: the content
of the named files, the names for which `os.Create` fails (with the error),
and when a write to a created file fails (as for `Sink.limit`). -/
structure Disk where
  files : List (String × List Byte)
  createErr : List (String × String)
  limit : Option (Nat × String)
  deriving DecidableEq, Repr

/-- The content of a named file, if the file exists. -/
def Disk.read (d : Disk) (name : String) : Option (List Byte) :=
  d.files.lookup name

/-- The file system with the content of `name` replaced by `bytes`. -/
def Disk.store (d : Disk) (name : String) (bytes : List Byte) : Disk :=
  { d with files := (name, bytes) :: d.files.filter (fun f => f.1 ≠ name) }

/-- Go `os.Create(name)`: the named file is created, or truncated if it
already exists; the file system afterwards, or the error. -/
def Disk.Create (d : Disk) (name : String) : Except String Disk :=
  match d.createErr.lookup name with
  | some e => Except.error e
  | none => Except.ok (d.store name [])

/-- What is known of a run of `tail`: how it ended (`none`: it is still in
the polling loop after the calls whose timing was supplied), the calls of
`fetch` it
made, in order, and the fetch state, standard output, file system and world
at that point. -/
structure TailResult where
  ret : Option (Outcome Unit)
  calls : List FetchResult
  state : fetchState
  stdout : Sink
  disk : Disk
  world : World
  deriving DecidableEq, Repr

/-- How the polling loop of `tail` stands after the calls `calls`: it has
ended with the outcome of the last call if that call did not succeed, and
is waiting for the next tick otherwise. -/
def loopRet (calls : List FetchResult) : Option (Outcome Unit) :=
  match calls.getLast? with
  | some r =>
    (match r.err with
     | Outcome.ok _ => none
     | o => some o)
  | none => none

/-- The period handed to `time.NewTicker`: the 64-bit product
`time.Duration(c.tick) * time.Second`, in nanoseconds. -/
def tickerPeriod (c : client) : Int :=
  wrap64 (c.tick * 1000000000)

/-- Go `<-tick.C` for a ticker created at `t0` with period `d > 0`: the
instant at which the receive returns when it starts at `ready` and the
previous receive returned at `lastRecv` (`t0` before the first receive).
The ticker ticks at `t0 + k * d` for `k = 1, 2, ...`; its channel keeps one
tick and drops the ticks that find it full.  When a tick fell in
`(lastRecv, ready]` it is pending and the receive returns at once;
otherwise the receive returns at the next tick. -/
def tickWake (t0 d lastRecv ready : Int) : Int :=
  if (lastRecv - t0) / d < (ready - t0) / d then ready
  else t0 + ((ready - t0) / d + 1) * d

/-- The instants at which the calls of `fetch` after the current one start
in the polling loop.  The current call began at `began`, the previous
receive from the ticker returned at `lastRecv`, and `finished` lists the
instants at which the current and the following calls finish (a call does
not finish before it began). -/
def tickReadings (t0 d : Int) : Int → Int → List Time → List Time
  | _, _, [] => []
  | lastRecv, began, fin :: rest =>
    let ready := if fin.instant < began then began else fin.instant
    let next := tickWake t0 d lastRecv ready
    ⟨next⟩ :: tickReadings t0 d next next rest

/-- The part of `tail` after the output has been chosen: one call of `fetch`
when the client is not in follow mode; otherwise the ticker is created
(`time.NewTicker` panics when the period is not positive) and the polling
loop runs, each call after the first starting when the receive from the
ticker returns.  `now` is the instant at which the first call starts (and
the ticker, if any, is created); `later` lists the instants at which the
successive calls of the loop finish. -/
def tailFetches (env : Env) (c : client) (now : Time) (later : List Time) (s : fetchState)
    (out : Sink) (w : World) : Option (Outcome Unit) × List FetchResult :=
  if !c.isFollowMode then
    let r := fetch env c now s out w
    (some r.err, [r])
  else if tickerPeriod c ≤ 0 then
    (some Outcome.panic, [])
  else
    let calls := fetchTrace env c
      (now :: tickReadings now.instant (tickerPeriod c) now.instant now.instant later) s out w
    (loopRet calls, calls)

/-- The fetch state after the calls `calls` started from `s`. -/
def finalState (calls : List FetchResult) (s : fetchState) : fetchState :=
  match calls.getLast? with
  | some r => r.state
  | none => s

/-- The world after the calls `calls` started from `w`. -/
def finalWorld (calls : List FetchResult) (w : World) : World :=
  match calls.getLast? with
  | some r => r.world
  | none => w

/-- The writer `tail` hands to `fetch`: the standard output when no output
file is configured, the freshly created (empty) file otherwise. -/
def tailOut (c : client) (stdout : Sink) (disk : Disk) : Sink :=
  if c.outputFile = "" then stdout else ⟨[], disk.limit⟩

/-- Go `tail`.  `now` is the instant at which the first call of `fetch`
starts and `later` lists the instants at which the successive calls of the
polling loop finish (see `tailFetches`); `stdout` is the standard output
and `disk` the file system before the run. -/
def tail (env : Env) (c : client) (resource : String) (now : Time) (later : List Time)
    (stdout : Sink) (disk : Disk) (w : World) : TailResult :=
  match initFetch env c ⟨"", 0, Time.zero, Time.zero⟩ resource w with
  | (Outcome.error e, s, w1) => ⟨some (Outcome.error e), [], s, stdout, disk, w1⟩
  | (Outcome.panic, s, w1) => ⟨some Outcome.panic, [], s, stdout, disk, w1⟩
  | (Outcome.ok _, s, w1) =>
    if c.outputFile = "" then
      let r := tailFetches env c now later s stdout w1
      ⟨r.1, r.2, finalState r.2 s, finalOut r.2 stdout, disk, finalWorld r.2 w1⟩
    else
      match disk.Create c.outputFile with
      | Except.error e => ⟨some (Outcome.error e), [], s, stdout, disk, w1⟩
      | Except.ok disk1 =>
        let r := tailFetches env c now later s ⟨[], disk1.limit⟩ w1
        ⟨r.1, r.2, finalState r.2 s, stdout,
          disk1.store c.outputFile (finalOut r.2 ⟨[], disk1.limit⟩).written,
          finalWorld r.2 w1⟩

/-! ## Concrete surroundings for worked examples -/

/-- A stand-in for the library: every request receives the same outcome
`r` (an error comes without a response); the URL `:` cannot be made into a
request (`url.Parse` reports a missing protocol scheme); a timestamp is written as the decimal number of
its instant, and only the first layout parses. -/
def stubEnv (r : Except String Response) : Env where
  newRequestErr := fun _ url => if url = ":" then some "missing protocol scheme" else none
  basicAuth := fun user password => "Basic " ++ user ++ ":" ++ password
  Do := fun _ _ => r
  errResponse := fun _ _ => none
  formatRFC1123 := fun t => FormatInt t.instant
  parseRFC1123 := fun v =>
    match ParseInt v.toList with
    | some i => Except.ok ⟨i⟩
    | none => Except.error "cannot parse"
  parseRFC850 := fun _ => Except.error "cannot parse"
  parseANSIC := fun _ => Except.error "cannot parse"

/-- A client as `main` prepares it for the size specification
`(byteOffset, fromStart)`, one-shot, without credentials. -/
def stubClient (byteOffset : Int) (fromStart : Bool) (dump : Bool) : client where
  user := ""
  password := ""
  userAgent := "rtail/1.2-dev"
  outputFile := ""
  byteOffset := byteOffset
  byteOffsetFromStart := fromStart
  tick := -1
  dumpHeaders := dump

/-- A response with the given status, headers and body bytes, read to a
clean end. -/
def stubResponse (code : Int) (status : String) (hdr : List (String × String))
    (bytes : List Byte) : Response :=
  ⟨status, code, ⟨hdr⟩, ⟨bytes, none⟩⟩

/-- An unlimited writer with nothing written. -/
def emptySink : Sink := ⟨[], none⟩

/-- The world before any request. -/
def emptyWorld : World := ⟨[], []⟩

/-- A stand-in for `time.Parse` in which one string parses under several
layouts, to different instants: `x` parses under all three layouts, `y`
under the second and third, `z` under the third only. -/
def layoutEnv : Env where
  newRequestErr := fun _ _ => none
  basicAuth := fun user password => "Basic " ++ user ++ ":" ++ password
  Do := fun _ _ => Except.error "no transport"
  errResponse := fun _ _ => none
  formatRFC1123 := fun t => FormatInt t.instant
  parseRFC1123 := fun v => if v = "x" then Except.ok ⟨1⟩ else Except.error "not RFC1123"
  parseRFC850 := fun v =>
    if v = "x" ∨ v = "y" then Except.ok ⟨2⟩ else Except.error "not RFC850"
  parseANSIC := fun v =>
    if v = "x" ∨ v = "y" ∨ v = "z" then Except.ok ⟨3⟩ else Except.error "not ANSIC"

/-- A file system with the one file `out.log`, holding three bytes; every
file can be created and written without error. -/
def stubDisk : Disk := ⟨[("out.log", [1, 2, 3])], [], none⟩

/-- A stand-in for the library in which the successive requests receive
the successive outcomes of `rs` (an error comes without a response), and a
transport error once `rs` is used up. -/
def scriptEnv (rs : List (Except String Response)) : Env where
  newRequestErr := fun _ _ => none
  basicAuth := fun user password => "Basic " ++ user ++ ":" ++ password
  Do := fun sent _ => rs.getD sent.length (Except.error "no more responses")
  errResponse := fun _ _ => none
  formatRFC1123 := fun t => FormatInt t.instant
  parseRFC1123 := fun v =>
    match ParseInt v.toList with
    | some i => Except.ok ⟨i⟩
    | none => Except.error "cannot parse"
  parseRFC850 := fun _ => Except.error "cannot parse"
  parseANSIC := fun _ => Except.error "cannot parse"

/-! ## Reference notions used to state the timing of the polling loop -/

/-- Every call finishes within its own interval: the call numbered `k`
(starting at `t0 + k * d`) finishes at or after its start and before
`t0 + (k + 1) * d`, and so do the calls after it. -/
def onTime (t0 d : Int) : Nat → List Time → Prop
  | _, [] => True
  | k, fin :: rest =>
    t0 + (k : Int) * d ≤ fin.instant ∧ fin.instant < t0 + ((k : Int) + 1) * d ∧
      onTime t0 d (k + 1) rest

/-- The ticks numbered `k + 1`, ..., `k + n` of a ticker created at `t0`
with period `d`. -/
def tickGrid (t0 d : Int) : Nat → Nat → List Time
  | _, 0 => []
  | k, n + 1 => ⟨t0 + ((k : Int) + 1) * d⟩ :: tickGrid t0 d (k + 1) n

/-! ## Reference notions used to state the parser's contract -/

/-- The input after the removal of at most one leading `+`. -/
def stripPlus : List Char → List Char
  | '+' :: t => t
  | s => s

/-- The accumulation the digit loop performs over a run of digits, in 64-bit
arithmetic. -/
def accum (size : Int) (d : List Char) : Int :=
  d.foldl (fun acc c => wrap64 (acc * 10 + ((c.toNat : Int) - 48))) size

end Rtail

namespace Rtail

set_option maxRecDepth 8192

/-! ## Facts about 64-bit wrap-around -/

theorem wrap64_inInt64 (x : Int) : inInt64 (wrap64 x) := by
  unfold inInt64 wrap64; omega

theorem wrap64_of_inInt64 {x : Int} (h : inInt64 x) : wrap64 x = x := by
  unfold inInt64 at h; unfold wrap64; omega

theorem wrap64_modEq (x : Int) : wrap64 x ≡ x [ZMOD 18446744073709551616] := by
  unfold wrap64 Int.ModEq; omega

theorem wrap64_congr {a b : Int} (h : a ≡ b [ZMOD 18446744073709551616]) :
    wrap64 a = wrap64 b := by
  unfold Int.ModEq at h; unfold wrap64; omega

/-! ## The digit loop -/

theorem isDigit_ne_plus {c : Char} (h : isDigit c = true) : c ≠ '+' := by
  rintro rfl
  revert h
  decide

theorem digitLoop_eq (t : List Char) (i : Nat) (size : Int) :
    digitLoop t i size (i + t.length)
      = (accum size (t.takeWhile isDigit), i + (t.takeWhile isDigit).length) := by
  induction t generalizing i size with
  | nil => simp [digitLoop, accum]
  | cons c cs ih =>
    by_cases hc : isDigit c = true
    · have e : i + (c :: cs).length = i + 1 + cs.length := by
        simp only [List.length_cons]; omega
      rw [e]
      simp only [digitLoop, hc, if_true, ih, List.takeWhile_cons_of_pos, accum,
        List.foldl_cons, List.length_cons]
      congr 1
      omega
    · simp [digitLoop, hc, accum]

theorem accum_modEq (d : List Char) (a b : Int)
    (h : a ≡ b [ZMOD 18446744073709551616]) :
    accum a d ≡ d.foldl (fun acc c => acc * 10 + ((c.toNat : Int) - 48)) b
      [ZMOD 18446744073709551616] := by
  induction d generalizing a b with
  | nil => simpa [accum] using h
  | cons c cs ih =>
    simp only [accum, List.foldl_cons]
    apply ih
    exact (wrap64_modEq _).trans ((h.mul_right 10).add_right _)

theorem accum_zero_modEq (d : List Char) :
    accum 0 d ≡ numericValue d [ZMOD 18446744073709551616] :=
  accum_modEq d 0 0 (Int.ModEq.refl 0)

theorem foldl_digits_nonneg (d : List Char) (hd : ∀ c ∈ d, isDigit c = true)
    (a : Int) (ha : 0 ≤ a) :
    0 ≤ d.foldl (fun acc c => acc * 10 + ((c.toNat : Int) - 48)) a := by
  induction d generalizing a with
  | nil => simpa using ha
  | cons c cs ih =>
    simp only [List.foldl_cons]
    apply ih (fun x hx => hd x (List.mem_cons_of_mem _ hx))
    have hc := hd c (List.mem_cons_self _ _)
    simp only [isDigit, Bool.and_eq_true, decide_eq_true_eq] at hc
    omega

theorem numericValue_nonneg (d : List Char) (hd : ∀ c ∈ d, isDigit c = true) :
    0 ≤ numericValue d :=
  foldl_digits_nonneg d hd 0 (le_refl 0)

/-! ## The parser in closed form -/

theorem findIn_eq_zero_iff (tbl : List (List Char × Int)) (hnz : ∀ e ∈ tbl, e.2 ≠ 0)
    (suffix : List Char) :
    findIn tbl suffix = 0 ↔ ∀ e ∈ tbl, e.1 ≠ suffix := by
  induction tbl with
  | nil => simp [findIn]
  | cons e rest ih =>
    have hrest := ih (fun x hx => hnz x (List.mem_cons_of_mem _ hx))
    have he := hnz e (List.mem_cons_self _ _)
    by_cases h : e.1 = suffix
    · simp [findIn, h, he]
    · simp [findIn, h, hrest]

theorem sizeSuffixes_ne_zero : ∀ e ∈ sizeSuffixes, e.2 ≠ 0 := by
  decide

theorem findSizeSuffix_eq_zero_iff (suffix : List Char) :
    findSizeSuffix suffix = 0 ↔ ∀ e ∈ sizeSuffixes, e.1 ≠ suffix :=
  findIn_eq_zero_iff sizeSuffixes sizeSuffixes_ne_zero suffix

theorem drop_takeWhile_length (t : List Char) :
    t.drop (t.takeWhile isDigit).length = t.dropWhile isDigit := by
  induction t with
  | nil => simp
  | cons c cs ih =>
    by_cases hc : isDigit c = true
    · simp [hc, ih]
    · simp [hc]

/-- The parser on an input without a leading `+`. -/
theorem parse_noPlus (t : List Char) (h : t.head? ≠ some '+') :
    parseByteSize t =
      if t.takeWhile isDigit = [] ∨ findSizeSuffix (t.dropWhile isDigit) = 0 then
        Except.error ⟨t⟩
      else
        Except.ok (wrap64 (accum 0 (t.takeWhile isDigit)
          * findSizeSuffix (t.dropWhile isDigit)), false) := by
  have hl := digitLoop_eq t 0 0
  simp only [Nat.zero_add] at hl
  simp only [parseByteSize, h, decide_False, Bool.and_false, Bool.false_eq_true, if_false, hl,
    drop_takeWhile_length, List.length_eq_zero]

/-- The parser on an input with a leading `+`. -/
theorem parse_plus (t : List Char) :
    parseByteSize ('+' :: t) =
      if t.takeWhile isDigit = [] ∨ findSizeSuffix (t.dropWhile isDigit) = 0 then
        Except.error ⟨t⟩
      else
        Except.ok (wrap64 (accum 0 (t.takeWhile isDigit)
          * findSizeSuffix (t.dropWhile isDigit)), true) := by
  have hl := digitLoop_eq t 0 0
  simp only [Nat.zero_add] at hl
  simp [parseByteSize, hl, drop_takeWhile_length]

/-! ## Table facts -/

theorem sizeSuffixes_pos : ∀ e ∈ sizeSuffixes, 0 < e.2 := by
  decide

theorem sizeSuffixes_find : ∀ e ∈ sizeSuffixes, findSizeSuffix e.1 = e.2 := by
  decide

theorem sizeSuffixes_takeWhile : ∀ e ∈ sizeSuffixes, e.1.takeWhile isDigit = [] := by
  decide

theorem sizeSuffixes_dropWhile : ∀ e ∈ sizeSuffixes, e.1.dropWhile isDigit = e.1 := by
  decide

theorem digits_head_ne_plus (D S : List Char) (hne : D ≠ [])
    (hD : ∀ c ∈ D, isDigit c = true) : (D ++ S).head? ≠ some '+' := by
  cases D with
  | nil => exact absurd rfl hne
  | cons c cs =>
    simp only [List.cons_append, List.head?_cons, ne_eq, Option.some.injEq]
    exact isDigit_ne_plus (hD c (List.mem_cons_self _ _))

/-- The value the parser computes on digits followed by a table suffix, for
every digit run: the exact product reduced to 64 bits. -/
theorem parse_digits_suffix_wrap (D S : List Char) (m : Int) (hne : D ≠ [])
    (hD : ∀ c ∈ D, isDigit c = true) (hS : (S, m) ∈ sizeSuffixes) :
    parseByteSize (D ++ S) = Except.ok (wrap64 (numericValue D * m), false) ∧
    parseByteSize ('+' :: (D ++ S)) = Except.ok (wrap64 (numericValue D * m), true) := by
  have htw : (D ++ S).takeWhile isDigit = D := by
    rw [List.takeWhile_append_of_pos hD, sizeSuffixes_takeWhile _ hS]; simp
  have hdw : (D ++ S).dropWhile isDigit = S := by
    rw [List.dropWhile_append_of_pos hD]; exact sizeSuffixes_dropWhile _ hS
  have hm : findSizeSuffix S = m := sizeSuffixes_find _ hS
  have hmne : m ≠ 0 := sizeSuffixes_ne_zero _ hS
  have hval : wrap64 (accum 0 D * m) = wrap64 (numericValue D * m) :=
    wrap64_congr ((accum_zero_modEq D).mul_right m)
  constructor
  · rw [parse_noPlus _ (digits_head_ne_plus D S hne hD), htw, hdw, hm, hval]
    simp [hne, hmne]
  · rw [parse_plus, htw, hdw, hm, hval]
    simp [hne, hmne]

/-! ## Claims about the parser -/

/-- C1, as stated, fails: the digit run `9223372036854775808` with the empty
suffix is accepted, but the value returned is not the number the digits
denote (the 64-bit accumulator has wrapped around). -/
theorem parseByteSize_exact_value_refuted :
    ¬ (∀ (D S : List Char) (m : Int), D ≠ [] → (∀ c ∈ D, isDigit c = true) →
        (S, m) ∈ sizeSuffixes →
        parseByteSize (D ++ S) = Except.ok (numericValue D * m, false) ∧
        parseByteSize ('+' :: (D ++ S)) = Except.ok (numericValue D * m, true)) := by
  intro h
  have h1 := (h "9223372036854775808".toList [] 1 (by decide) (by decide) (by decide)).1
  revert h1
  decide

/-- C1, amended: for every non-empty run `D` of decimal digits and every
entry `(S, m)` of the multiplier table such that `numericValue D * m` fits a
signed 64-bit integer, `parseByteSize (D ++ S)` succeeds with the value
`numericValue D * m` and the flag false, and `parseByteSize ("+" ++ D ++ S)`
succeeds with the same value and the flag true. -/
theorem parseByteSize_digits_suffix (D S : List Char) (m : Int) (hne : D ≠ [])
    (hD : ∀ c ∈ D, isDigit c = true) (hS : (S, m) ∈ sizeSuffixes)
    (hfit : numericValue D * m ≤ 9223372036854775807) :
    parseByteSize (D ++ S) = Except.ok (numericValue D * m, false) ∧
    parseByteSize ('+' :: (D ++ S)) = Except.ok (numericValue D * m, true) := by
  have hnn : 0 ≤ numericValue D * m :=
    Int.mul_nonneg (numericValue_nonneg D hD) (le_of_lt (sizeSuffixes_pos _ hS))
  have hw : wrap64 (numericValue D * m) = numericValue D * m :=
    wrap64_of_inInt64 ⟨by omega, hfit⟩
  have h := parse_digits_suffix_wrap D S m hne hD hS
  rw [hw] at h
  exact h

theorem parseByteSize_digits_suffix_witness :
    parseByteSize ("14".toList ++ "KiB".toList) = Except.ok (numericValue "14".toList * 1024, false) ∧
    parseByteSize ('+' :: ("14".toList ++ "KiB".toList))
      = Except.ok (numericValue "14".toList * 1024, true) :=
  parseByteSize_digits_suffix "14".toList "KiB".toList 1024 (by decide) (by decide) (by decide)
    (by decide)

/-- C2: `parseByteSize` returns an error for every string that, after the
removal of at most one leading `+`, does not start with a decimal digit
(the empty string and `+` included), and for every string whose remainder
after the leading digit run is not equal to an entry of the multiplier
table. -/
theorem parseByteSize_rejects (s : List Char)
    (h : (∀ c rest, stripPlus s = c :: rest → isDigit c = false) ∨
         (∀ e ∈ sizeSuffixes, e.1 ≠ (stripPlus s).dropWhile isDigit)) :
    parseByteSize s = Except.error ⟨stripPlus s⟩ := by
  have key : ∀ t : List Char,
      ((∀ c rest, t = c :: rest → isDigit c = false) ∨
         (∀ e ∈ sizeSuffixes, e.1 ≠ t.dropWhile isDigit)) →
      (t.takeWhile isDigit = [] ∨ findSizeSuffix (t.dropWhile isDigit) = 0) := by
    intro t ht
    rcases ht with ht | ht
    · left
      cases t with
      | nil => rfl
      | cons c cs =>
        have hc := ht c cs rfl
        simp [hc]
    · right
      exact (findSizeSuffix_eq_zero_iff _).2 ht
  by_cases hp : s.head? = some '+'
  · obtain ⟨t, rfl⟩ : ∃ t, s = '+' :: t := by
      cases s with
      | nil => simp at hp
      | cons c cs =>
        simp only [List.head?_cons, Option.some.injEq] at hp
        exact ⟨cs, by rw [hp]⟩
    have hs : stripPlus ('+' :: t) = t := rfl
    rw [hs] at h ⊢
    rw [parse_plus, if_pos (key t h)]
  · have hs : stripPlus s = s := by
      unfold stripPlus
      split
      · exact absurd rfl hp
      · rfl
    rw [hs] at h ⊢
    rw [parse_noPlus s hp, if_pos (key s h)]

theorem parseByteSize_rejects_witness :
    parseByteSize "1kb".toList = Except.error ⟨stripPlus "1kb".toList⟩ :=
  parseByteSize_rejects "1kb".toList (Or.inr (by decide))

/-- C3, evaluated at the failing input: `parseByteSize` accepts
`9223372036854775808` and returns the negative value
`-9223372036854775808`. -/
theorem parseByteSize_negative_value :
    parseByteSize "9223372036854775808".toList
      = Except.ok (-9223372036854775808, false) ∧
    (-9223372036854775808 : Int) < 0 := by
  decide

/-! ## Requests -/

theorem Header.find_Set_same (h : Header) (key value : String) :
    (h.Set key value).find key = some value := by
  simp [Header.Set, Header.find, List.lookup]

theorem lookup_filter_ne (l : List (String × String)) (key other : String)
    (hne : other ≠ key) :
    List.lookup other (l.filter (fun e => e.1 ≠ key)) = List.lookup other l := by
  induction l with
  | nil => rfl
  | cons e rest ih =>
    obtain ⟨k, v⟩ := e
    by_cases he : k = key
    · have ho : (other == k) = false := by rw [he]; simpa using hne
      have hf : List.filter (fun e => decide (e.1 ≠ key)) ((k, v) :: rest)
          = List.filter (fun e => decide (e.1 ≠ key)) rest := by
        simp [List.filter_cons, he]
      rw [hf, ih, List.lookup_cons, ho]
    · have hf : List.filter (fun e => decide (e.1 ≠ key)) ((k, v) :: rest)
          = (k, v) :: List.filter (fun e => decide (e.1 ≠ key)) rest := by
        simp [List.filter_cons, he]
      rw [hf, List.lookup_cons, List.lookup_cons, ih]

theorem Header.find_Set_other (h : Header) (key value other : String) (hne : other ≠ key) :
    (h.Set key value).find other = h.find other := by
  have hbeq : (other == key) = false := by simpa using hne
  simp only [Header.Set, Header.find, List.lookup_cons, hbeq]
  exact lookup_filter_ne h.entries key other hne

theorem buildRequest_range (env : Env) (c : client) (method : String) (s : fetchState) :
    (buildRequest env c method s).header.find "Range"
      = if s.offset > 0 then some ("bytes=" ++ FormatInt s.offset ++ "-") else none := by
  have h3 : ∀ h : Header, h.find "Range" = none →
      (if !s.lastModified.IsZero then
        h.Set "If-Modified-Since" (formatHttpTime env s.lastModified) else h).find "Range"
        = none := by
    intro h hh
    split
    · rw [Header.find_Set_other _ _ _ _ (by decide)]; exact hh
    · exact hh
  have h2 : ∀ h : Header, h.find "Range" = none →
      (if c.userAgent ≠ "" then h.Set "User-Agent" c.userAgent else h).find "Range" = none := by
    intro h hh
    split
    · rw [Header.find_Set_other _ _ _ _ (by decide)]; exact hh
    · exact hh
  have h1 : (if c.user ≠ "" then
      Header.empty.Set "Authorization" (env.basicAuth c.user c.password)
      else Header.empty).find "Range" = none := by
    split
    · rw [Header.find_Set_other _ _ _ _ (by decide)]; rfl
    · rfl
  have h := h3 _ (h2 _ h1)
  simp only [buildRequest]
  split
  · exact Header.find_Set_same _ _ _
  · exact h

theorem doRequest_requests (env : Env) (c : client) (method : String) (s : fetchState)
    (w : World) :
    (doRequest env c method s w).2.requests
      = w.requests ++
        (if env.newRequestErr method s.resource = none then [buildRequest env c method s]
         else []) := by
  unfold doRequest
  cases hreq : env.newRequestErr method s.resource with
  | some e => simp
  | none =>
    cases hdo : env.Do w.requests (buildRequest env c method s) with
    | ok resp => cases hd : c.dumpHeaders <;> simp [hdo, dumpHeaders]
    | error e =>
      cases hd : c.dumpHeaders
      · simp [hdo]
      · cases hr : env.errResponse w.requests (buildRequest env c method s) <;>
          simp [hdo, hr, dumpHeaders, dumpHeadersNil]

theorem doRequest_ok (env : Env) (c : client) (method : String) (s : fetchState) (w : World)
    (resp : Response) (hreq : env.newRequestErr method s.resource = none)
    (hdo : env.Do w.requests (buildRequest env c method s) = Except.ok resp) :
    doRequest env c method s w
      = (Outcome.ok resp,
          if c.dumpHeaders then
            dumpHeaders (buildRequest env c method s) resp
              { w with requests := w.requests ++ [buildRequest env c method s] }
          else { w with requests := w.requests ++ [buildRequest env c method s] }) := by
  unfold doRequest
  simp only [hreq, hdo]
  cases c.dumpHeaders <;> simp

/-- C4: the request `doRequest` builds carries no `Range` header when the
offset of the state is 0 (more generally, not positive) and carries the
`Range` header `bytes=` followed by the decimal rendering of the offset and
`-` when the offset is positive; that request is the one `doRequest` sends,
whenever it sends one. -/
theorem doRequest_range_header (env : Env) (c : client) (method : String) (s : fetchState)
    (w : World) :
    (buildRequest env c method s).header.find "Range"
      = (if s.offset > 0 then some ("bytes=" ++ FormatInt s.offset ++ "-") else none) ∧
    (doRequest env c method s w).2.requests
      = w.requests ++
        (if env.newRequestErr method s.resource = none then [buildRequest env c method s]
         else []) :=
  ⟨buildRequest_range env c method s, doRequest_requests env c method s w⟩

theorem doRequest_range_header_witness :
    (buildRequest (stubEnv (Except.error "connection refused")) (stubClient 1024 false false)
        "GET" ⟨"http://host/app.log", 1024, Time.zero, Time.zero⟩).header.find "Range"
      = some "bytes=1024-" ∧
    (buildRequest (stubEnv (Except.error "connection refused")) (stubClient 0 true false)
        "GET" ⟨"http://host/app.log", 0, Time.zero, Time.zero⟩).header.find "Range" = none :=
  ⟨(doRequest_range_header (stubEnv (Except.error "connection refused"))
      (stubClient 1024 false false) "GET" ⟨"http://host/app.log", 1024, Time.zero, Time.zero⟩
      emptyWorld).1.trans (by decide),
   (doRequest_range_header (stubEnv (Except.error "connection refused"))
      (stubClient 0 true false) "GET" ⟨"http://host/app.log", 0, Time.zero, Time.zero⟩
      emptyWorld).1.trans (by decide)⟩

/-! ## One call of `fetch` -/

theorem ioCopy_written_length (out : Sink) (b : Body) :
    (ioCopy out b).2.2.written.length = out.written.length + (ioCopy out b).1 := by
  unfold ioCopy
  cases hl : out.limit with
  | none => simp
  | some ke =>
    obtain ⟨k, e⟩ := ke
    by_cases hk : k < b.bytes.length
    · simp [hk, List.length_take]; omega
    · simp [hk]

/-- The call when the expiry does not short-circuit it and the request
receives a response. -/
theorem fetch_response (env : Env) (c : client) (now : Time) (s : fetchState) (out : Sink)
    (w : World) (resp : Response)
    (hexp : (!s.expires.IsZero && now.Before s.expires) = false)
    (hreq : env.newRequestErr "GET" s.resource = none)
    (hdo : env.Do w.requests (buildRequest env c "GET" s) = Except.ok resp) :
    fetch env c now s out w =
      if resp.statusCode ≥ 200 ∧ resp.statusCode < 300 then
        match (ioCopy out resp.body).2.1 with
        | none =>
          ⟨Outcome.ok (),
            ⟨s.resource, wrap64 (s.offset + ((ioCopy out resp.body).1 : Int)),
              updateTime env resp "Last-Modified" s.lastModified,
              updateTime env resp "Expires" s.expires⟩,
            (ioCopy out resp.body).2.2, (doRequest env c "GET" s w).2⟩
        | some e =>
          ⟨Outcome.error e,
            ⟨s.resource, wrap64 (s.offset + ((ioCopy out resp.body).1 : Int)),
              updateTime env resp "Last-Modified" s.lastModified,
              updateTime env resp "Expires" s.expires⟩,
            (ioCopy out resp.body).2.2, (doRequest env c "GET" s w).2⟩
      else if resp.statusCode = 304 then
        ⟨Outcome.ok (), s, out, (doRequest env c "GET" s w).2⟩
      else
        ⟨Outcome.error resp.status, s, out, (doRequest env c "GET" s w).2⟩ := by
  unfold fetch
  rw [hexp, doRequest_ok env c "GET" s w resp hreq hdo]
  simp only [Bool.false_eq_true, if_false]

/-- Every call, whatever its outcome, extends the output by some number of
bytes and moves the offset by the same number (in 64-bit arithmetic). -/
theorem fetch_written (env : Env) (c : client) (now : Time) (s : fetchState) (out : Sink)
    (w : World) :
    ∃ n : Nat,
      (fetch env c now s out w).out.written.length = out.written.length + n ∧
      ((fetch env c now s out w).state.offset = wrap64 (s.offset + (n : Int)) ∨
        (n = 0 ∧ (fetch env c now s out w).state.offset = s.offset)) := by
  unfold fetch
  split
  · exact ⟨0, rfl, Or.inr ⟨rfl, rfl⟩⟩
  · split
    · exact ⟨0, rfl, Or.inr ⟨rfl, rfl⟩⟩
    · exact ⟨0, rfl, Or.inr ⟨rfl, rfl⟩⟩
    · rename_i resp w1 _
      split
      · refine ⟨(ioCopy out resp.body).1, ?_, Or.inl ?_⟩
        · have := ioCopy_written_length out resp.body
          dsimp only
          split <;> exact this
        · dsimp only
          split <;> rfl
      · split
        · exact ⟨0, rfl, Or.inr ⟨rfl, rfl⟩⟩
        · exact ⟨0, rfl, Or.inr ⟨rfl, rfl⟩⟩

/-! ## Successive calls of `fetch` -/

theorem finalOut_cons (r : FetchResult) (tl : List FetchResult) (out : Sink) :
    finalOut (r :: tl) out = finalOut tl r.out := by
  cases tl with
  | nil => rfl
  | cons r2 tl2 =>
    simp only [finalOut, List.getLast?_cons_cons]
    cases h : (r2 :: tl2).getLast? with
    | some x => rfl
    | none => simp at h

theorem fetchTrace_out_mono (env : Env) (c : client) (times : List Time) :
    ∀ (s : fetchState) (out : Sink) (w : World),
      out.written.length ≤ (finalOut (fetchTrace env c times s out w) out).written.length := by
  induction times with
  | nil => intro s out w; exact le_refl _
  | cons now rest ih =>
    intro s out w
    obtain ⟨n, hn, _⟩ := fetch_written env c now s out w
    simp only [fetchTrace, finalOut_cons]
    cases hr : (fetch env c now s out w).err with
    | ok u =>
      have := ih (fetch env c now s out w).state (fetch env c now s out w).out
        (fetch env c now s out w).world
      simp only [] at this ⊢
      omega
    | error e => simp only [finalOut, List.getLast?_nil]; omega
    | panic => simp only [finalOut, List.getLast?_nil]; omega

theorem fetchTrace_offsets_chain (env : Env) (c : client) (times : List Time) :
    ∀ (s : fetchState) (out : Sink) (w : World), inInt64 s.offset →
      s.offset + ((finalOut (fetchTrace env c times s out w) out).written.length : Int)
          - (out.written.length : Int) ≤ 9223372036854775807 →
      List.Chain (fun a b : Int => a ≤ b) s.offset
        ((fetchTrace env c times s out w).map (fun r => r.state.offset)) := by
  induction times with
  | nil => intro s out w _ _; exact List.Chain.nil
  | cons now rest ih =>
    intro s out w hs hfit
    obtain ⟨n, hn, hoff⟩ := fetch_written env c now s out w
    simp only [fetchTrace, finalOut_cons] at hfit
    simp only [fetchTrace, List.map_cons]
    have hlow : -9223372036854775808 ≤ s.offset := hs.1
    cases hr : (fetch env c now s out w).err with
    | ok u =>
      rw [hr] at hfit
      simp only [] at hfit ⊢
      have hmono := fetchTrace_out_mono env c rest (fetch env c now s out w).state
        (fetch env c now s out w).out (fetch env c now s out w).world
      have hstep : (fetch env c now s out w).state.offset = s.offset + (n : Int) := by
        rcases hoff with h | ⟨h0, h⟩
        · rw [h]; apply wrap64_of_inInt64; constructor <;> omega
        · rw [h, h0]; simp
      refine List.Chain.cons (by omega) ?_
      apply ih
      · rw [hstep]; constructor <;> omega
      · rw [hstep]; omega
    | error e =>
      rw [hr] at hfit
      simp only [finalOut, List.getLast?_nil] at hfit
      have hstep : (fetch env c now s out w).state.offset = s.offset + (n : Int) := by
        rcases hoff with h | ⟨h0, h⟩
        · rw [h]; apply wrap64_of_inInt64; constructor <;> omega
        · rw [h, h0]; simp
      exact List.Chain.cons (by omega) List.Chain.nil
    | panic =>
      rw [hr] at hfit
      simp only [finalOut, List.getLast?_nil] at hfit
      have hstep : (fetch env c now s out w).state.offset = s.offset + (n : Int) := by
        rcases hoff with h | ⟨h0, h⟩
        · rw [h]; apply wrap64_of_inInt64; constructor <;> omega
        · rw [h, h0]; simp
      exact List.Chain.cons (by omega) List.Chain.nil

/-! ## Claims about `fetch` -/

/-- C5, as stated, fails: the state that `initFetch` produces for the size
specification `+9223372036854775807` and a 200 response with a one-byte
body; the body is copied without error and `fetch` succeeds, but the new
offset is `-9223372036854775808`, which is neither the old offset plus one
nor at least the old offset. -/
theorem fetch_offset_wraps :
    parseByteSize "+9223372036854775807".toList = Except.ok (9223372036854775807, true) ∧
    (initFetch (stubEnv (Except.ok (stubResponse 200 "200 OK" [] [65])))
        (stubClient 9223372036854775807 true false) ⟨"", 0, Time.zero, Time.zero⟩
        "http://host/app.log" emptyWorld).2.1
      = ⟨"http://host/app.log", 9223372036854775807, Time.zero, Time.zero⟩ ∧
    (fetch (stubEnv (Except.ok (stubResponse 200 "200 OK" [] [65])))
        (stubClient 9223372036854775807 true false) ⟨0⟩
        ⟨"http://host/app.log", 9223372036854775807, Time.zero, Time.zero⟩
        emptySink emptyWorld).err = Outcome.ok () ∧
    (fetch (stubEnv (Except.ok (stubResponse 200 "200 OK" [] [65])))
        (stubClient 9223372036854775807 true false) ⟨0⟩
        ⟨"http://host/app.log", 9223372036854775807, Time.zero, Time.zero⟩
        emptySink emptyWorld).out.written = [65] ∧
    (fetch (stubEnv (Except.ok (stubResponse 200 "200 OK" [] [65])))
        (stubClient 9223372036854775807 true false) ⟨0⟩
        ⟨"http://host/app.log", 9223372036854775807, Time.zero, Time.zero⟩
        emptySink emptyWorld).state.offset = -9223372036854775808 ∧
    (-9223372036854775808 : Int) ≠ 9223372036854775807 + 1 ∧
    (-9223372036854775808 : Int) < 9223372036854775807 := by
  decide

/-- C5, amended: for every fetch state (whose offset is a 64-bit value) and
every 2xx response whose body is copied to the sink without error, provided
the old offset plus the number of bytes written does not exceed the largest
64-bit integer, `fetch` returns success and the new offset equals the old
offset plus the number of bytes written to the sink; and over every
sequence of successive `fetch` calls, provided the initial offset plus the
number of bytes written during the whole sequence does not exceed the
largest 64-bit integer, the offset never decreases from one call to the
next. -/
theorem fetch_offset_advances :
    (∀ (env : Env) (c : client) (now : Time) (s : fetchState) (out : Sink) (w : World)
        (resp : Response),
        inInt64 s.offset →
        (!s.expires.IsZero && now.Before s.expires) = false →
        env.newRequestErr "GET" s.resource = none →
        env.Do w.requests (buildRequest env c "GET" s) = Except.ok resp →
        (200 ≤ resp.statusCode ∧ resp.statusCode < 300) →
        (ioCopy out resp.body).2.1 = none →
        s.offset + ((ioCopy out resp.body).1 : Int) ≤ 9223372036854775807 →
        (fetch env c now s out w).err = Outcome.ok () ∧
        (fetch env c now s out w).out.written.length
          = out.written.length + (ioCopy out resp.body).1 ∧
        (fetch env c now s out w).state.offset
          = s.offset + ((ioCopy out resp.body).1 : Int)) ∧
    (∀ (env : Env) (c : client) (times : List Time) (s : fetchState) (out : Sink) (w : World),
        inInt64 s.offset →
        s.offset + ((finalOut (fetchTrace env c times s out w) out).written.length : Int)
            - (out.written.length : Int) ≤ 9223372036854775807 →
        List.Chain (fun a b : Int => a ≤ b) s.offset
          ((fetchTrace env c times s out w).map (fun r => r.state.offset))) := by
  refine ⟨?_, fun env c times s out w => fetchTrace_offsets_chain env c times s out w⟩
  intro env c now s out w resp hs hexp hreq hdo h2xx hcopy hfit
  have hf := fetch_response env c now s out w resp hexp hreq hdo
  rw [if_pos (show resp.statusCode ≥ 200 ∧ resp.statusCode < 300 from h2xx), hcopy] at hf
  have hw : wrap64 (s.offset + ((ioCopy out resp.body).1 : Int))
      = s.offset + ((ioCopy out resp.body).1 : Int) := by
    apply wrap64_of_inInt64
    have := hs.1
    constructor <;> omega
  rw [hf]
  exact ⟨rfl, ioCopy_written_length out resp.body, hw⟩

theorem fetch_offset_advances_witness :
    ((fetch (stubEnv (Except.ok (stubResponse 200 "200 OK" [] [65, 66, 67])))
        (stubClient 1024 false false) ⟨0⟩ ⟨"http://host/app.log", 1024, Time.zero, Time.zero⟩
        emptySink emptyWorld).err = Outcome.ok () ∧
    (fetch (stubEnv (Except.ok (stubResponse 200 "200 OK" [] [65, 66, 67])))
        (stubClient 1024 false false) ⟨0⟩ ⟨"http://host/app.log", 1024, Time.zero, Time.zero⟩
        emptySink emptyWorld).out.written.length
      = emptySink.written.length
        + (ioCopy emptySink (stubResponse 200 "200 OK" [] [65, 66, 67]).body).1 ∧
    (fetch (stubEnv (Except.ok (stubResponse 200 "200 OK" [] [65, 66, 67])))
        (stubClient 1024 false false) ⟨0⟩ ⟨"http://host/app.log", 1024, Time.zero, Time.zero⟩
        emptySink emptyWorld).state.offset
      = (1024 : Int)
        + ((ioCopy emptySink (stubResponse 200 "200 OK" [] [65, 66, 67]).body).1 : Int)) ∧
    List.Chain (fun a b : Int => a ≤ b) 1024
      ((fetchTrace (stubEnv (Except.ok (stubResponse 200 "200 OK" [] [65, 66, 67])))
        (stubClient 1024 false false) [⟨0⟩, ⟨5⟩]
        ⟨"http://host/app.log", 1024, Time.zero, Time.zero⟩ emptySink emptyWorld).map
        (fun r => r.state.offset)) :=
  ⟨fetch_offset_advances.1 (stubEnv (Except.ok (stubResponse 200 "200 OK" [] [65, 66, 67])))
    (stubClient 1024 false false) ⟨0⟩ ⟨"http://host/app.log", 1024, Time.zero, Time.zero⟩
    emptySink emptyWorld (stubResponse 200 "200 OK" [] [65, 66, 67])
    (by decide) (by decide) (by decide) (by decide) (by decide) (by decide) (by decide),
   fetch_offset_advances.2 (stubEnv (Except.ok (stubResponse 200 "200 OK" [] [65, 66, 67])))
    (stubClient 1024 false false) [⟨0⟩, ⟨5⟩]
    ⟨"http://host/app.log", 1024, Time.zero, Time.zero⟩ emptySink emptyWorld
    (by decide) (by decide)⟩

theorem fetch_world (env : Env) (c : client) (now : Time) (s : fetchState) (out : Sink)
    (w : World) (hexp : (!s.expires.IsZero && now.Before s.expires) = false) :
    (fetch env c now s out w).world = (doRequest env c "GET" s w).2 := by
  unfold fetch
  rw [hexp]
  simp only [Bool.false_eq_true, if_false]
  split
  · rename_i h; rw [h]
  · rename_i h; rw [h]
  · rename_i h
    rw [h]
    dsimp only
    split
    · split <;> rfl
    · split <;> rfl

/-- C6: when the expiry does not short-circuit the call and the response
status is 304, `fetch` returns success, writes nothing to the sink and
leaves every field of the fetch state as it was, whatever headers and body
the response carries. -/
theorem fetch_not_modified (env : Env) (c : client) (now : Time) (s : fetchState) (out : Sink)
    (w : World) (resp : Response)
    (hexp : (!s.expires.IsZero && now.Before s.expires) = false)
    (hreq : env.newRequestErr "GET" s.resource = none)
    (hdo : env.Do w.requests (buildRequest env c "GET" s) = Except.ok resp)
    (h304 : resp.statusCode = 304) :
    (fetch env c now s out w).err = Outcome.ok () ∧
    (fetch env c now s out w).out = out ∧
    (fetch env c now s out w).state = s := by
  have hf := fetch_response env c now s out w resp hexp hreq hdo
  rw [if_neg (by rw [h304]; decide), if_pos h304] at hf
  rw [hf]
  exact ⟨rfl, rfl, rfl⟩

theorem fetch_not_modified_witness :
    (fetch (stubEnv (Except.ok (stubResponse 304 "304 Not Modified"
        [("Last-Modified", "77"), ("Expires", "99")] [1, 2, 3])))
      (stubClient 0 true true) ⟨10⟩ ⟨"http://host/app.log", 42, ⟨5⟩, ⟨9⟩⟩
      ⟨[7], none⟩ emptyWorld).err = Outcome.ok () ∧
    (fetch (stubEnv (Except.ok (stubResponse 304 "304 Not Modified"
        [("Last-Modified", "77"), ("Expires", "99")] [1, 2, 3])))
      (stubClient 0 true true) ⟨10⟩ ⟨"http://host/app.log", 42, ⟨5⟩, ⟨9⟩⟩
      ⟨[7], none⟩ emptyWorld).out = ⟨[7], none⟩ ∧
    (fetch (stubEnv (Except.ok (stubResponse 304 "304 Not Modified"
        [("Last-Modified", "77"), ("Expires", "99")] [1, 2, 3])))
      (stubClient 0 true true) ⟨10⟩ ⟨"http://host/app.log", 42, ⟨5⟩, ⟨9⟩⟩
      ⟨[7], none⟩ emptyWorld).state = ⟨"http://host/app.log", 42, ⟨5⟩, ⟨9⟩⟩ :=
  fetch_not_modified (stubEnv (Except.ok (stubResponse 304 "304 Not Modified"
        [("Last-Modified", "77"), ("Expires", "99")] [1, 2, 3])))
    (stubClient 0 true true) ⟨10⟩ ⟨"http://host/app.log", 42, ⟨5⟩, ⟨9⟩⟩ ⟨[7], none⟩ emptyWorld
    (stubResponse 304 "304 Not Modified" [("Last-Modified", "77"), ("Expires", "99")] [1, 2, 3])
    (by decide) (by decide) (by decide) (by decide)

/-- C7, as stated, fails: a state whose expiry is unset and whose resource
is `:`, from which no request can be constructed; `fetch` returns the
construction error and no request is issued. -/
theorem fetch_unset_expiry_no_request :
    Time.IsZero (fetchState.expires ⟨":", 0, Time.zero, Time.zero⟩) = true ∧
    (fetch (stubEnv (Except.ok (stubResponse 200 "200 OK" [] [65]))) (stubClient 0 true false)
        ⟨0⟩ ⟨":", 0, Time.zero, Time.zero⟩ emptySink emptyWorld).world.requests = [] ∧
    (fetch (stubEnv (Except.ok (stubResponse 200 "200 OK" [] [65]))) (stubClient 0 true false)
        ⟨0⟩ ⟨":", 0, Time.zero, Time.zero⟩ emptySink emptyWorld).err
      = Outcome.error "missing protocol scheme" := by
  decide

/-- C7, amended: if the expiry of the state is set and `now` is strictly
before it, `fetch` issues no request, writes nothing, returns success and
leaves the state unchanged (so repeating the call is a no-op); if the
expiry is unset or `now` is at or after it, and a request can be
constructed for the resource, `fetch` issues exactly one request, with
method GET.  With an expiry 10 s after an instant `t0`, the call at
`t0 + 5 s` is a no-op and the call at `t0 + 10 s` issues a request.  If the
expiry is unset or `now` is at or after it, and `http.NewRequest` rejects
the resource, `fetch` returns that error without issuing a request and
leaves the state and the sink as they were. -/
theorem fetch_expiry_gate :
    (∀ (env : Env) (c : client) (now : Time) (s : fetchState) (out : Sink) (w : World),
        s.expires.IsZero = false → now.Before s.expires = true →
        fetch env c now s out w = ⟨Outcome.ok (), s, out, w⟩) ∧
    (∀ (env : Env) (c : client) (now : Time) (s : fetchState) (out : Sink) (w : World),
        (s.expires.IsZero = true ∨ now.Before s.expires = false) →
        env.newRequestErr "GET" s.resource = none →
        (fetch env c now s out w).world.requests = w.requests ++ [buildRequest env c "GET" s] ∧
        (buildRequest env c "GET" s).method = "GET") ∧
    (∀ (env : Env) (c : client) (t0 : Int) (s : fetchState) (out : Sink) (w : World),
        s.expires = ⟨t0 + 10000000000⟩ → t0 + 10000000000 ≠ 0 →
        env.newRequestErr "GET" s.resource = none →
        fetch env c ⟨t0 + 5000000000⟩ s out w = ⟨Outcome.ok (), s, out, w⟩ ∧
        (fetch env c ⟨t0 + 10000000000⟩ s out w).world.requests
          = w.requests ++ [buildRequest env c "GET" s]) ∧
    (∀ (env : Env) (c : client) (now : Time) (s : fetchState) (out : Sink) (w : World)
        (e : String),
        (s.expires.IsZero = true ∨ now.Before s.expires = false) →
        env.newRequestErr "GET" s.resource = some e →
        fetch env c now s out w = ⟨Outcome.error e, s, out, w⟩) := by
  have part4 : ∀ (env : Env) (c : client) (now : Time) (s : fetchState) (out : Sink)
      (w : World) (e : String),
      (s.expires.IsZero = true ∨ now.Before s.expires = false) →
      env.newRequestErr "GET" s.resource = some e →
      fetch env c now s out w = ⟨Outcome.error e, s, out, w⟩ := by
    intro env c now s out w e h hreq
    have hexp : (!s.expires.IsZero && now.Before s.expires) = false := by
      rcases h with h | h <;> simp [h]
    unfold fetch doRequest
    rw [hexp, hreq]
    simp
  have part1 : ∀ (env : Env) (c : client) (now : Time) (s : fetchState) (out : Sink)
      (w : World), s.expires.IsZero = false → now.Before s.expires = true →
      fetch env c now s out w = ⟨Outcome.ok (), s, out, w⟩ := by
    intro env c now s out w hz hb
    unfold fetch
    simp [hz, hb]
  have part2 : ∀ (env : Env) (c : client) (now : Time) (s : fetchState) (out : Sink)
      (w : World), (s.expires.IsZero = true ∨ now.Before s.expires = false) →
      env.newRequestErr "GET" s.resource = none →
      (fetch env c now s out w).world.requests
        = w.requests ++ [buildRequest env c "GET" s] := by
    intro env c now s out w h hreq
    have hexp : (!s.expires.IsZero && now.Before s.expires) = false := by
      rcases h with h | h <;> simp [h]
    rw [fetch_world env c now s out w hexp, doRequest_requests, if_pos hreq]
  refine ⟨part1, fun env c now s out w h hreq => ⟨part2 env c now s out w h hreq, rfl⟩, ?_,
    part4⟩
  intro env c t0 s out w hexp hne hreq
  constructor
  · apply part1
    · rw [hexp]; simp [Time.IsZero, hne]
    · rw [hexp]; simp [Time.Before]
  · apply part2 _ _ _ _ _ _ _ hreq
    right
    rw [hexp]; simp [Time.Before]

theorem fetch_expiry_gate_witness :
    fetch (stubEnv (Except.ok (stubResponse 200 "200 OK" [] [65]))) (stubClient 0 true false)
        ⟨5000000000⟩ ⟨"http://host/app.log", 3, Time.zero, ⟨10000000000⟩⟩ emptySink emptyWorld
      = ⟨Outcome.ok (), ⟨"http://host/app.log", 3, Time.zero, ⟨10000000000⟩⟩, emptySink,
          emptyWorld⟩ ∧
    ((fetch (stubEnv (Except.ok (stubResponse 200 "200 OK" [] [65]))) (stubClient 0 true false)
        ⟨10000000000⟩ ⟨"http://host/app.log", 3, Time.zero, ⟨10000000000⟩⟩ emptySink
        emptyWorld).world.requests
      = emptyWorld.requests ++
        [buildRequest (stubEnv (Except.ok (stubResponse 200 "200 OK" [] [65])))
          (stubClient 0 true false) "GET"
          ⟨"http://host/app.log", 3, Time.zero, ⟨10000000000⟩⟩] ∧
     (buildRequest (stubEnv (Except.ok (stubResponse 200 "200 OK" [] [65])))
          (stubClient 0 true false) "GET"
          ⟨"http://host/app.log", 3, Time.zero, ⟨10000000000⟩⟩).method = "GET") ∧
    (fetch (stubEnv (Except.ok (stubResponse 200 "200 OK" [] [65]))) (stubClient 0 true false)
        ⟨0 + 5000000000⟩ ⟨"http://host/app.log", 3, Time.zero, ⟨0 + 10000000000⟩⟩ emptySink
        emptyWorld
      = ⟨Outcome.ok (), ⟨"http://host/app.log", 3, Time.zero, ⟨0 + 10000000000⟩⟩, emptySink,
          emptyWorld⟩ ∧
     (fetch (stubEnv (Except.ok (stubResponse 200 "200 OK" [] [65]))) (stubClient 0 true false)
        ⟨0 + 10000000000⟩ ⟨"http://host/app.log", 3, Time.zero, ⟨0 + 10000000000⟩⟩ emptySink
        emptyWorld).world.requests
      = emptyWorld.requests ++
        [buildRequest (stubEnv (Except.ok (stubResponse 200 "200 OK" [] [65])))
          (stubClient 0 true false) "GET"
          ⟨"http://host/app.log", 3, Time.zero, ⟨0 + 10000000000⟩⟩]) ∧
    fetch (stubEnv (Except.ok (stubResponse 200 "200 OK" [] [65]))) (stubClient 0 true false)
        ⟨7⟩ ⟨":", 3, Time.zero, Time.zero⟩ emptySink emptyWorld
      = ⟨Outcome.error "missing protocol scheme", ⟨":", 3, Time.zero, Time.zero⟩, emptySink,
          emptyWorld⟩ :=
  ⟨fetch_expiry_gate.1 (stubEnv (Except.ok (stubResponse 200 "200 OK" [] [65])))
      (stubClient 0 true false) ⟨5000000000⟩
      ⟨"http://host/app.log", 3, Time.zero, ⟨10000000000⟩⟩ emptySink emptyWorld
      (by decide) (by decide),
   fetch_expiry_gate.2.1 (stubEnv (Except.ok (stubResponse 200 "200 OK" [] [65])))
      (stubClient 0 true false) ⟨10000000000⟩
      ⟨"http://host/app.log", 3, Time.zero, ⟨10000000000⟩⟩ emptySink emptyWorld
      (Or.inr (by decide)) (by decide),
   fetch_expiry_gate.2.2.1 (stubEnv (Except.ok (stubResponse 200 "200 OK" [] [65])))
      (stubClient 0 true false) 0
      ⟨"http://host/app.log", 3, Time.zero, ⟨0 + 10000000000⟩⟩ emptySink emptyWorld
      rfl (by decide) (by decide),
   fetch_expiry_gate.2.2.2 (stubEnv (Except.ok (stubResponse 200 "200 OK" [] [65])))
      (stubClient 0 true false) ⟨7⟩ ⟨":", 3, Time.zero, Time.zero⟩ emptySink emptyWorld
      "missing protocol scheme" (Or.inl (by decide)) (by decide)⟩

/-- C8: when the expiry does not short-circuit the call and the response's
status code is neither in 200..299 nor equal to 304, `fetch` fails with an
error whose message is the `Status` text of the response, verbatim; the
state and the sink are left as they were. -/
theorem fetch_remote_error (env : Env) (c : client) (now : Time) (s : fetchState) (out : Sink)
    (w : World) (resp : Response)
    (hexp : (!s.expires.IsZero && now.Before s.expires) = false)
    (hreq : env.newRequestErr "GET" s.resource = none)
    (hdo : env.Do w.requests (buildRequest env c "GET" s) = Except.ok resp)
    (hnot2xx : ¬ (200 ≤ resp.statusCode ∧ resp.statusCode < 300))
    (hnot304 : resp.statusCode ≠ 304) :
    (fetch env c now s out w).err = Outcome.error resp.status ∧
    (fetch env c now s out w).out = out ∧
    (fetch env c now s out w).state = s := by
  have hf := fetch_response env c now s out w resp hexp hreq hdo
  rw [if_neg (show ¬ (resp.statusCode ≥ 200 ∧ resp.statusCode < 300) from hnot2xx),
    if_neg hnot304] at hf
  rw [hf]
  exact ⟨rfl, rfl, rfl⟩

theorem fetch_remote_error_witness :
    (fetch (stubEnv (Except.ok (stubResponse 404 "404 Not Found" [] [1, 2])))
      (stubClient 0 true false) ⟨0⟩ ⟨"http://host/app.log", 42, Time.zero, Time.zero⟩
      emptySink emptyWorld).err = Outcome.error "404 Not Found" ∧
    (fetch (stubEnv (Except.ok (stubResponse 404 "404 Not Found" [] [1, 2])))
      (stubClient 0 true false) ⟨0⟩ ⟨"http://host/app.log", 42, Time.zero, Time.zero⟩
      emptySink emptyWorld).out = emptySink ∧
    (fetch (stubEnv (Except.ok (stubResponse 404 "404 Not Found" [] [1, 2])))
      (stubClient 0 true false) ⟨0⟩ ⟨"http://host/app.log", 42, Time.zero, Time.zero⟩
      emptySink emptyWorld).state = ⟨"http://host/app.log", 42, Time.zero, Time.zero⟩ :=
  fetch_remote_error (stubEnv (Except.ok (stubResponse 404 "404 Not Found" [] [1, 2])))
    (stubClient 0 true false) ⟨0⟩ ⟨"http://host/app.log", 42, Time.zero, Time.zero⟩
    emptySink emptyWorld (stubResponse 404 "404 Not Found" [] [1, 2])
    (by decide) (by decide) (by decide) (by decide) (by decide)

/-! ## Claims about `initFetch` -/

/-- The probe when it receives a response. -/
theorem initFetch_response (env : Env) (c : client) (s0 : fetchState) (resource : String)
    (w : World) (resp : Response) (hfs : c.byteOffsetFromStart = false)
    (hreq : env.newRequestErr "HEAD" resource = none)
    (hdo : env.Do w.requests (buildRequest env c "HEAD" ⟨resource, 0, Time.zero, Time.zero⟩)
      = Except.ok resp) :
    (initFetch env c s0 resource w).1 = Outcome.ok () ∧
    (initFetch env c s0 resource w).2.1 =
      ⟨resource,
        (match ParseInt (resp.header.Get "Content-Length").toList with
         | some size => max (wrap64 (size - c.byteOffset)) 0
         | none => 0),
        Time.zero, Time.zero⟩ := by
  unfold initFetch
  simp only [hfs, Bool.false_eq_true, if_false]
  rw [doRequest_ok env c "HEAD" ⟨resource, 0, Time.zero, Time.zero⟩ w resp hreq hdo]
  dsimp only
  by_cases hcl : resp.header.Get "Content-Length" = ""
  · have hp : ParseInt (resp.header.Get "Content-Length").toList = none := by
      rw [hcl]; rfl
    simp only [hcl, ne_eq, not_true_eq_false, if_false]
    rw [hcl] at hp
    rw [hp]
    exact ⟨trivial, rfl⟩
  · simp only [ne_eq, hcl, not_false_eq_true, if_true]
    cases hp : ParseInt (resp.header.Get "Content-Length").toList with
    | none => exact ⟨rfl, rfl⟩
    | some size => exact ⟨rfl, rfl⟩

theorem parseInt_body (digits : List Char) (neg : Bool) (n : Int)
    (h : (if digits = [] ∨ digits.all isDigit = false then none
          else
            if neg then
              if numericValue digits > 9223372036854775808 then none
              else some (-numericValue digits)
            else
              if numericValue digits ≥ 9223372036854775808 then none
              else some (numericValue digits)) = some n) :
    inInt64 n := by
  by_cases hd : digits = [] ∨ digits.all isDigit = false
  · rw [if_pos hd] at h
    exact absurd h (by simp)
  · rw [if_neg hd] at h
    have hall : ∀ x ∈ digits, isDigit x = true := by
      intro x hx
      by_contra hx2
      apply hd
      right
      rw [List.all_eq_false]
      exact ⟨x, hx, hx2⟩
    have hnn := numericValue_nonneg digits hall
    cases neg with
    | false =>
      simp only [Bool.false_eq_true, if_false] at h
      by_cases hb : numericValue digits ≥ 9223372036854775808
      · rw [if_pos hb] at h
        exact absurd h (by simp)
      · rw [if_neg hb] at h
        simp only [Option.some.injEq] at h
        subst h
        unfold inInt64
        constructor <;> omega
    | true =>
      simp only [if_true] at h
      by_cases hb : numericValue digits > 9223372036854775808
      · rw [if_pos hb] at h
        exact absurd h (by simp)
      · rw [if_neg hb] at h
        simp only [Option.some.injEq] at h
        subst h
        unfold inInt64
        constructor <;> omega

/-- A value `ParseInt` delivers is a 64-bit value. -/
theorem ParseInt_inInt64 (v : List Char) (n : Int) (h : ParseInt v = some n) : inInt64 n := by
  cases v with
  | nil => exact absurd h (by simp [ParseInt])
  | cons c rest =>
    exact parseInt_body (if c = '+' ∨ c = '-' then rest else c :: rest) (decide (c = '-')) n h

/-- C9, as stated, fails: the size specification `9223372036854775808`,
anchored from the end, for which `parseByteSize` delivers the magnitude
`-9223372036854775808`, and a probe response with `Content-Length: 2048`.
`initFetch` sets the offset to `0`, whereas `max (totalSize - magnitude) 0`
is `9223372036854777856`, a value no 64-bit offset can hold. -/
theorem initFetch_offset_wraps :
    parseByteSize "9223372036854775808".toList
      = Except.ok (-9223372036854775808, false) ∧
    ParseInt "2048".toList = some 2048 ∧
    (initFetch (stubEnv (Except.ok (stubResponse 200 "200 OK"
        [("Content-Length", "2048")] [])))
      (stubClient (-9223372036854775808) false false) ⟨"", 0, Time.zero, Time.zero⟩
      "http://host/app.log" emptyWorld).2.1.offset = 0 ∧
    max (2048 - (-9223372036854775808)) 0 = 9223372036854777856 ∧
    (0 : Int) ≠ 9223372036854777856 := by
  decide

/-- C9, amended: when the size specification is anchored from the end and
the metadata probe returns a response, `initFetch` succeeds; if the response
carries a `Content-Length` header that parses as an integer `totalSize` and
`totalSize - magnitude` is representable as a 64-bit integer, the offset is
set to `max (totalSize - magnitude) 0`; that is so whenever `totalSize` and
the (64-bit) magnitude are both non-negative; if the header is absent or
does not parse, the offset is set to 0.  Magnitude 1024 against a 2048-byte
resource gives offset 1024. -/
theorem initFetch_offset_from_end (env : Env) (c : client) (s0 : fetchState)
    (resource : String) (w : World) (resp : Response)
    (hfs : c.byteOffsetFromStart = false)
    (hreq : env.newRequestErr "HEAD" resource = none)
    (hdo : env.Do w.requests (buildRequest env c "HEAD" ⟨resource, 0, Time.zero, Time.zero⟩)
      = Except.ok resp) :
    (initFetch env c s0 resource w).1 = Outcome.ok () ∧
    (∀ totalSize : Int,
        ParseInt (resp.header.Get "Content-Length").toList = some totalSize →
        inInt64 (totalSize - c.byteOffset) →
        (initFetch env c s0 resource w).2.1.offset = max (totalSize - c.byteOffset) 0) ∧
    (ParseInt (resp.header.Get "Content-Length").toList = none →
        (initFetch env c s0 resource w).2.1.offset = 0) ∧
    (∀ totalSize : Int,
        ParseInt (resp.header.Get "Content-Length").toList = some totalSize →
        0 ≤ totalSize → 0 ≤ c.byteOffset → inInt64 c.byteOffset →
        (initFetch env c s0 resource w).2.1.offset = max (totalSize - c.byteOffset) 0) := by
  obtain ⟨h1, h2⟩ := initFetch_response env c s0 resource w resp hfs hreq hdo
  have key : ∀ totalSize : Int,
      ParseInt (resp.header.Get "Content-Length").toList = some totalSize →
      inInt64 (totalSize - c.byteOffset) →
      (initFetch env c s0 resource w).2.1.offset = max (totalSize - c.byteOffset) 0 := by
    intro totalSize hp hfit
    rw [h2, hp]
    dsimp only
    rw [wrap64_of_inInt64 hfit]
  refine ⟨h1, key, ?_, ?_⟩
  · intro hp
    rw [h2, hp]
  · intro totalSize hp hnn hmag hrange
    apply key totalSize hp
    have hsz := ParseInt_inInt64 _ _ hp
    unfold inInt64 at hsz hrange ⊢
    constructor <;> omega

theorem initFetch_offset_from_end_witness :
    (initFetch (stubEnv (Except.ok (stubResponse 200 "200 OK" [("Content-Length", "2048")] [])))
      (stubClient 1024 false false) ⟨"", 0, Time.zero, Time.zero⟩ "http://host/app.log"
      emptyWorld).2.1.offset = max (2048 - 1024) 0 ∧
    max (2048 - 1024) 0 = 1024 :=
  ⟨(initFetch_offset_from_end
      (stubEnv (Except.ok (stubResponse 200 "200 OK" [("Content-Length", "2048")] [])))
      (stubClient 1024 false false) ⟨"", 0, Time.zero, Time.zero⟩ "http://host/app.log"
      emptyWorld (stubResponse 200 "200 OK" [("Content-Length", "2048")] [])
      (by decide) (by decide) (by decide)).2.2.2 2048 (by decide) (by decide) (by decide)
      (by decide),
   by decide⟩

/-- C10: when the size specification is anchored from the start,
`initFetch` issues no request (the world is unchanged), returns success and
produces the state with the given resource, the offset equal to the
magnitude, and `lastModified` and `expires` unset; `+0` parses to magnitude
0 anchored from the start, and the request built for the first fetch from
the resulting state carries no `Range` header. -/
theorem initFetch_from_start :
    (∀ (env : Env) (c : client) (s0 : fetchState) (resource : String) (w : World),
        c.byteOffsetFromStart = true →
        initFetch env c s0 resource w
          = (Outcome.ok (), ⟨resource, c.byteOffset, Time.zero, Time.zero⟩, w)) ∧
    parseByteSize "+0".toList = Except.ok (0, true) ∧
    (∀ (env : Env) (c : client) (s0 : fetchState) (resource : String) (w : World),
        c.byteOffsetFromStart = true → c.byteOffset = 0 →
        (buildRequest env c "GET" (initFetch env c s0 resource w).2.1).header.find "Range"
          = none) := by
  have part1 : ∀ (env : Env) (c : client) (s0 : fetchState) (resource : String) (w : World),
      c.byteOffsetFromStart = true →
      initFetch env c s0 resource w
        = (Outcome.ok (), ⟨resource, c.byteOffset, Time.zero, Time.zero⟩, w) := by
    intro env c s0 resource w h
    unfold initFetch
    simp [h]
  refine ⟨part1, by decide, ?_⟩
  intro env c s0 resource w h h0
  rw [part1 env c s0 resource w h, buildRequest_range]
  simp [h0]

theorem initFetch_from_start_witness :
    initFetch (stubEnv (Except.error "connection refused")) (stubClient 0 true false)
        ⟨"old", 7, ⟨1⟩, ⟨2⟩⟩ "http://host/app.log" emptyWorld
      = (Outcome.ok (), ⟨"http://host/app.log", 0, Time.zero, Time.zero⟩, emptyWorld) ∧
    (buildRequest (stubEnv (Except.error "connection refused")) (stubClient 0 true false) "GET"
        (initFetch (stubEnv (Except.error "connection refused")) (stubClient 0 true false)
          ⟨"old", 7, ⟨1⟩, ⟨2⟩⟩ "http://host/app.log" emptyWorld).2.1).header.find "Range"
      = none :=
  ⟨initFetch_from_start.1 (stubEnv (Except.error "connection refused"))
      (stubClient 0 true false) ⟨"old", 7, ⟨1⟩, ⟨2⟩⟩ "http://host/app.log" emptyWorld
      (by decide),
   initFetch_from_start.2.2 (stubEnv (Except.error "connection refused"))
      (stubClient 0 true false) ⟨"old", 7, ⟨1⟩, ⟨2⟩⟩ "http://host/app.log" emptyWorld
      (by decide) (by decide)⟩

/-! ## Header dumping and transport errors -/

theorem buildRequest_dump (env : Env) (c : client) (b : Bool) (method : String)
    (s : fetchState) :
    buildRequest env { c with dumpHeaders := b } method s = buildRequest env c method s :=
  rfl

/-- An error that `Do` returns together with a response is returned by
`doRequest` whatever the dump flag; with the flag set the response is
dumped. -/
theorem doRequest_error_with_response (env : Env) (c : client) (method : String)
    (s : fetchState) (w : World) (e : String) (resp : Response)
    (hreq : env.newRequestErr method s.resource = none)
    (hdo : env.Do w.requests (buildRequest env c method s) = Except.error e)
    (hresp : env.errResponse w.requests (buildRequest env c method s) = some resp) :
    (doRequest env c method s w).1 = Outcome.error e := by
  unfold doRequest
  simp only [hreq, hdo, hresp]
  cases c.dumpHeaders <;> simp

/-- With a response in hand, the dump flag changes neither the result of
`doRequest` nor the request sent. -/
theorem doRequest_dump_on_response (env : Env) (c : client) (b : Bool) (method : String)
    (s : fetchState) (w : World) (resp : Response)
    (hreq : env.newRequestErr method s.resource = none)
    (hdo : env.Do w.requests (buildRequest env c method s) = Except.ok resp) :
    (doRequest env { c with dumpHeaders := b } method s w).1 = Outcome.ok resp ∧
    (doRequest env { c with dumpHeaders := b } method s w).2.requests
      = w.requests ++ [buildRequest env c method s] := by
  have hdo2 : env.Do w.requests (buildRequest env { c with dumpHeaders := b } method s)
      = Except.ok resp := by rw [buildRequest_dump]; exact hdo
  constructor
  · rw [doRequest_ok env _ method s w resp hreq hdo2]
  · rw [doRequest_requests, if_pos hreq, buildRequest_dump]

/-- The probe that fails with a transport error while header dumping is
disabled: `initFetch` returns that error and `tail` returns it without a
call of `fetch` and without touching the output. -/
theorem tail_probe_error (env : Env) (c : client) (resource : String) (now : Time)
    (later : List Time) (stdout : Sink) (disk : Disk) (w : World) (e : String)
    (hfs : c.byteOffsetFromStart = false) (hd : c.dumpHeaders = false)
    (hreq : env.newRequestErr "HEAD" resource = none)
    (hdo : env.Do w.requests (buildRequest env c "HEAD" ⟨resource, 0, Time.zero, Time.zero⟩)
      = Except.error e) :
    (initFetch env c ⟨"", 0, Time.zero, Time.zero⟩ resource w).1 = Outcome.error e ∧
    (tail env c resource now later stdout disk w).ret = some (Outcome.error e) ∧
    (tail env c resource now later stdout disk w).calls = [] ∧
    (tail env c resource now later stdout disk w).stdout = stdout ∧
    (tail env c resource now later stdout disk w).disk = disk := by
  have hi : initFetch env c ⟨"", 0, Time.zero, Time.zero⟩ resource w
      = (Outcome.error e, ⟨resource, 0, Time.zero, Time.zero⟩,
          { w with requests := w.requests
              ++ [buildRequest env c "HEAD" ⟨resource, 0, Time.zero, Time.zero⟩] }) := by
    unfold initFetch doRequest
    simp [hfs, hd, hreq, hdo]
  refine ⟨by rw [hi], ?_, ?_, ?_, ?_⟩ <;> (unfold tail; rw [hi])

/-- C11, evaluated at the failing input: the size specification is anchored
from the end, the probe fails with the transport error `connection refused`
and header dumping is enabled.  `initFetch` and `tail` end in a run-time
panic instead of returning the error (no call of `fetch` is made and the
output file is left as it was); with header dumping disabled the same run
returns the error. -/
theorem tail_probe_error_with_dump :
    (initFetch (stubEnv (Except.error "connection refused"))
        { stubClient 1024 false true with outputFile := "out.log" }
        ⟨"", 0, Time.zero, Time.zero⟩ "http://host/app.log" emptyWorld).1 = Outcome.panic ∧
    (tail (stubEnv (Except.error "connection refused"))
        { stubClient 1024 false true with outputFile := "out.log" }
        "http://host/app.log" ⟨0⟩ [] emptySink stubDisk emptyWorld).ret = some Outcome.panic ∧
    (tail (stubEnv (Except.error "connection refused"))
        { stubClient 1024 false true with outputFile := "out.log" }
        "http://host/app.log" ⟨0⟩ [] emptySink stubDisk emptyWorld).calls = [] ∧
    (tail (stubEnv (Except.error "connection refused"))
        { stubClient 1024 false true with outputFile := "out.log" }
        "http://host/app.log" ⟨0⟩ [] emptySink stubDisk emptyWorld).disk = stubDisk ∧
    (tail (stubEnv (Except.error "connection refused"))
        { stubClient 1024 false false with outputFile := "out.log" }
        "http://host/app.log" ⟨0⟩ [] emptySink stubDisk emptyWorld).ret
      = some (Outcome.error "connection refused") := by
  decide

/-- C12, evaluated at the failing input: a transport error that yields no
response.  With header dumping disabled `doRequest`, `initFetch` and `fetch`
return the transport error; with header dumping enabled each of them ends
in a run-time panic. -/
theorem dumpHeaders_changes_outcome :
    (doRequest (stubEnv (Except.error "connection refused")) (stubClient 1024 false false)
        "GET" ⟨"http://host/app.log", 0, Time.zero, Time.zero⟩ emptyWorld).1
      = Outcome.error "connection refused" ∧
    (doRequest (stubEnv (Except.error "connection refused")) (stubClient 1024 false true)
        "GET" ⟨"http://host/app.log", 0, Time.zero, Time.zero⟩ emptyWorld).1
      = Outcome.panic ∧
    (initFetch (stubEnv (Except.error "connection refused")) (stubClient 1024 false false)
        ⟨"", 0, Time.zero, Time.zero⟩ "http://host/app.log" emptyWorld).1
      = Outcome.error "connection refused" ∧
    (initFetch (stubEnv (Except.error "connection refused")) (stubClient 1024 false true)
        ⟨"", 0, Time.zero, Time.zero⟩ "http://host/app.log" emptyWorld).1
      = Outcome.panic ∧
    (fetch (stubEnv (Except.error "connection refused")) (stubClient 1024 false false) ⟨0⟩
        ⟨"http://host/app.log", 0, Time.zero, Time.zero⟩ emptySink emptyWorld).err
      = Outcome.error "connection refused" ∧
    (fetch (stubEnv (Except.error "connection refused")) (stubClient 1024 false true) ⟨0⟩
        ⟨"http://host/app.log", 0, Time.zero, Time.zero⟩ emptySink emptyWorld).err
      = Outcome.panic := by
  decide

/-! ## The polling loop -/

theorem fetchTrace_cons (env : Env) (c : client) (now : Time) (rest : List Time)
    (s : fetchState) (out : Sink) (w : World) :
    fetchTrace env c (now :: rest) s out w
      = fetch env c now s out w ::
        (match (fetch env c now s out w).err with
         | Outcome.ok _ =>
           fetchTrace env c rest (fetch env c now s out w).state (fetch env c now s out w).out
             (fetch env c now s out w).world
         | _ => []) :=
  rfl

/-- Every call of the loop before the last one succeeded. -/
theorem fetchTrace_dropLast_ok (env : Env) (c : client) (times : List Time) :
    ∀ (s : fetchState) (out : Sink) (w : World),
      ∀ r ∈ (fetchTrace env c times s out w).dropLast, r.err = Outcome.ok () := by
  induction times with
  | nil => intro s out w r hr; simp [fetchTrace] at hr
  | cons now rest ih =>
    intro s out w r hr
    rw [fetchTrace_cons] at hr
    cases herr : (fetch env c now s out w).err with
    | ok u =>
      rw [herr] at hr
      simp only [] at hr
      by_cases hnil : fetchTrace env c rest (fetch env c now s out w).state
          (fetch env c now s out w).out (fetch env c now s out w).world = []
      · rw [hnil] at hr; simp at hr
      · rw [List.dropLast_cons_of_ne_nil hnil, List.mem_cons] at hr
        rcases hr with rfl | hr
        · exact herr
        · exact ih _ _ _ r hr
    | error e => rw [herr] at hr; simp at hr
    | panic => rw [herr] at hr; simp at hr

/-- When every call succeeded, every clock reading was used for a call. -/
theorem fetchTrace_length_of_ok (env : Env) (c : client) (times : List Time) :
    ∀ (s : fetchState) (out : Sink) (w : World),
      (∀ r ∈ fetchTrace env c times s out w, r.err = Outcome.ok ()) →
      (fetchTrace env c times s out w).length = times.length := by
  induction times with
  | nil => intro s out w _; rfl
  | cons now rest ih =>
    intro s out w hall
    rw [fetchTrace_cons] at hall ⊢
    have h0 := hall _ (List.mem_cons_self _ _)
    rw [h0] at hall ⊢
    simp only [List.length_cons, add_left_inj]
    apply ih
    intro r hr
    exact hall r (List.mem_cons_of_mem _ hr)

theorem loopRet_some (calls : List FetchResult) (o : Outcome Unit)
    (h : loopRet calls = some o) :
    o ≠ Outcome.ok () ∧ ∃ r, calls.getLast? = some r ∧ r.err = o := by
  unfold loopRet at h
  cases hl : calls.getLast? with
  | none => rw [hl] at h; simp at h
  | some r =>
    rw [hl] at h
    dsimp only at h
    cases herr : r.err with
    | ok u => rw [herr] at h; simp at h
    | error e =>
      rw [herr] at h
      simp only [Option.some.injEq] at h
      subst h
      exact ⟨by simp, r, rfl, herr⟩
    | panic =>
      rw [herr] at h
      simp only [Option.some.injEq] at h
      subst h
      exact ⟨by simp, r, rfl, herr⟩

theorem loopRet_none_iff (calls : List FetchResult)
    (hinit : ∀ r ∈ calls.dropLast, r.err = Outcome.ok ()) :
    loopRet calls = none ↔ ∀ r ∈ calls, r.err = Outcome.ok () := by
  unfold loopRet
  cases hl : calls.getLast? with
  | none =>
    have : calls = [] := List.getLast?_eq_none_iff.1 hl
    subst this
    simp
  | some r =>
    have hsplit := List.dropLast_append_getLast? r (by rw [hl]; exact rfl)
    dsimp only
    constructor
    · intro h x hx
      rw [← hsplit, List.mem_append, List.mem_singleton] at hx
      rcases hx with hx | rfl
      · exact hinit x hx
      · cases herr : x.err with
        | ok u => rfl
        | error e => rw [herr] at h; simp at h
        | panic => rw [herr] at h; simp at h
    · intro h
      have hr : r.err = Outcome.ok () := by
        apply h
        rw [← hsplit]
        simp
      rw [hr]

/-- The run of `tail` once `initFetch` has succeeded and the output is
open. -/
theorem tail_after_open (env : Env) (c : client) (resource : String) (now : Time)
    (later : List Time) (stdout : Sink) (disk : Disk) (w : World) (s : fetchState)
    (w1 : World)
    (hinit : initFetch env c ⟨"", 0, Time.zero, Time.zero⟩ resource w = (Outcome.ok (), s, w1))
    (hopen : c.outputFile = "" ∨ disk.createErr.lookup c.outputFile = none) :
    (tail env c resource now later stdout disk w).ret
      = (tailFetches env c now later s (tailOut c stdout disk) w1).1 ∧
    (tail env c resource now later stdout disk w).calls
      = (tailFetches env c now later s (tailOut c stdout disk) w1).2 := by
  unfold tail
  rw [hinit]
  by_cases hf : c.outputFile = ""
  · simp [hf, tailOut]
  · have hc : disk.createErr.lookup c.outputFile = none := by
      rcases hopen with h | h
      · exact absurd h hf
      · exact h
    simp [hf, tailOut, Disk.Create, hc, Disk.store]

/-! ## Claims about `tail` -/

/-- C13: in one-shot mode (`tick <= 0`), once `initFetch` has succeeded and
the output is open, `tail` makes exactly one call of `fetch` and ends with
exactly the outcome of that call, whatever it is. -/
theorem tail_one_shot (env : Env) (c : client) (resource : String) (now : Time)
    (later : List Time) (stdout : Sink) (disk : Disk) (w : World) (s : fetchState)
    (w1 : World) (htick : c.tick ≤ 0)
    (hinit : initFetch env c ⟨"", 0, Time.zero, Time.zero⟩ resource w = (Outcome.ok (), s, w1))
    (hopen : c.outputFile = "" ∨ disk.createErr.lookup c.outputFile = none) :
    (tail env c resource now later stdout disk w).calls
      = [fetch env c now s (tailOut c stdout disk) w1] ∧
    (tail env c resource now later stdout disk w).ret
      = some (fetch env c now s (tailOut c stdout disk) w1).err := by
  obtain ⟨h1, h2⟩ := tail_after_open env c resource now later stdout disk w s w1 hinit hopen
  have hmode : c.isFollowMode = false := by
    simp only [client.isFollowMode, decide_eq_false_iff_not]
    omega
  rw [h1, h2]
  simp [tailFetches, hmode]

theorem tail_one_shot_witness :
    (tail (stubEnv (Except.ok (stubResponse 404 "404 Not Found" [] []))) (stubClient 0 true false)
        "http://host/app.log" ⟨0⟩ [⟨5⟩] emptySink stubDisk emptyWorld).calls
      = [fetch (stubEnv (Except.ok (stubResponse 404 "404 Not Found" [] [])))
          (stubClient 0 true false) ⟨0⟩ ⟨"http://host/app.log", 0, Time.zero, Time.zero⟩
          (tailOut (stubClient 0 true false) emptySink stubDisk) emptyWorld] ∧
    (tail (stubEnv (Except.ok (stubResponse 404 "404 Not Found" [] []))) (stubClient 0 true false)
        "http://host/app.log" ⟨0⟩ [⟨5⟩] emptySink stubDisk emptyWorld).ret
      = some (fetch (stubEnv (Except.ok (stubResponse 404 "404 Not Found" [] [])))
          (stubClient 0 true false) ⟨0⟩ ⟨"http://host/app.log", 0, Time.zero, Time.zero⟩
          (tailOut (stubClient 0 true false) emptySink stubDisk) emptyWorld).err :=
  tail_one_shot (stubEnv (Except.ok (stubResponse 404 "404 Not Found" [] [])))
    (stubClient 0 true false) "http://host/app.log" ⟨0⟩ [⟨5⟩] emptySink stubDisk emptyWorld
    ⟨"http://host/app.log", 0, Time.zero, Time.zero⟩ emptyWorld
    (by decide) (by decide) (Or.inl (by decide))

/-! ## The ticker of the polling loop -/

theorem ediv_eq_of_bounds (x d k : Int) (hd : 0 < d) (h1 : k * d ≤ x)
    (h2 : x < (k + 1) * d) : x / d = k := by
  have a : k ≤ x / d := (Int.le_ediv_iff_mul_le hd).2 h1
  have b : x / d < k + 1 := (Int.ediv_lt_iff_lt_mul hd).2 h2
  omega

/-- A receive from the ticker returns no earlier than it starts and at most
one period later. -/
theorem tickWake_bounds (t0 d lastRecv ready : Int) (hd : 0 < d) :
    ready ≤ tickWake t0 d lastRecv ready ∧ tickWake t0 d lastRecv ready ≤ ready + d := by
  unfold tickWake
  split
  · exact ⟨le_refl _, by omega⟩
  · have h := Int.ediv_add_emod (ready - t0) d
    have h1 := Int.emod_nonneg (ready - t0) (ne_of_gt hd)
    have h2 := Int.emod_lt_of_pos (ready - t0) hd
    have e : ((ready - t0) / d + 1) * d = d * ((ready - t0) / d) + d := by ring
    rw [e]
    constructor <;> omega

/-- When a whole period has passed since the previous receive, a tick is
pending and the receive returns at once. -/
theorem tickWake_pending (t0 d lastRecv ready : Int) (hd : 0 < d)
    (h : lastRecv + d ≤ ready) : tickWake t0 d lastRecv ready = ready := by
  unfold tickWake
  have h1 : (lastRecv - t0 + 1 * d) / d ≤ (ready - t0) / d :=
    Int.ediv_le_ediv hd (by omega)
  rw [Int.add_mul_ediv_right _ _ (ne_of_gt hd)] at h1
  rw [if_pos (by omega)]

theorem tickReadings_length (t0 d : Int) (later : List Time) :
    ∀ lastRecv began : Int, (tickReadings t0 d lastRecv began later).length = later.length := by
  induction later with
  | nil => intro _ _; rfl
  | cons fin rest ih =>
    intro lastRecv began
    simp only [tickReadings, List.length_cons, ih]

/-- When every call finishes within its own interval, the calls start at
the successive ticks. -/
theorem tickReadings_onTime (t0 d : Int) (hd : 0 < d) (later : List Time) :
    ∀ k : Nat, onTime t0 d k later →
      tickReadings t0 d (t0 + (k : Int) * d) (t0 + (k : Int) * d) later
        = tickGrid t0 d k later.length := by
  induction later with
  | nil => intro k _; rfl
  | cons fin rest ih =>
    intro k hk
    obtain ⟨h1, h2, h3⟩ := hk
    have hq1 : (t0 + (k : Int) * d - t0) / d = (k : Int) :=
      ediv_eq_of_bounds _ d k hd (by omega) (by
        have : ((k : Int) + 1) * d = (k : Int) * d + d := by ring
        omega)
    have hq2 : (fin.instant - t0) / d = (k : Int) :=
      ediv_eq_of_bounds _ d k hd (by omega) (by omega)
    have hwake : tickWake t0 d (t0 + (k : Int) * d) fin.instant
        = t0 + (((k + 1 : Nat) : Int)) * d := by
      unfold tickWake
      rw [hq1, hq2, if_neg (lt_irrefl _)]
      push_cast
      rfl
    have hready : (if fin.instant < t0 + (k : Int) * d then t0 + (k : Int) * d
        else fin.instant) = fin.instant := if_neg (by omega)
    simp only [tickReadings, hready, hwake, List.length_cons, tickGrid]
    rw [ih (k + 1) h3]
    push_cast
    rfl

/-- C14, as stated, fails: follow mode with `tick = 5` (a period of 5 s),
every request answered 200, and a first call of `fetch` that starts at 0 s
and finishes at 7 s.  The tick of 5 s is pending when the call finishes, so
the receive from the ticker returns at once: the second call starts at 7 s,
the instant the first one finished, without any wait. -/
theorem tail_follow_no_wait :
    tickerPeriod { stubClient 0 true false with tick := 5 } = 5000000000 ∧
    tickReadings 0 5000000000 0 0 [⟨7000000000⟩] = [⟨7000000000⟩] ∧
    (tail (stubEnv (Except.ok (stubResponse 200 "200 OK" [] [65])))
        { stubClient 0 true false with tick := 5 }
        "http://host/app.log" ⟨0⟩ [⟨7000000000⟩] emptySink stubDisk emptyWorld).calls
      = fetchTrace (stubEnv (Except.ok (stubResponse 200 "200 OK" [] [65])))
          { stubClient 0 true false with tick := 5 } [⟨0⟩, ⟨7000000000⟩]
          ⟨"http://host/app.log", 0, Time.zero, Time.zero⟩ emptySink emptyWorld ∧
    (tail (stubEnv (Except.ok (stubResponse 200 "200 OK" [] [65])))
        { stubClient 0 true false with tick := 5 }
        "http://host/app.log" ⟨0⟩ [⟨7000000000⟩] emptySink stubDisk emptyWorld).calls.length
      = 2 ∧
    (tail (stubEnv (Except.ok (stubResponse 200 "200 OK" [] [65])))
        { stubClient 0 true false with tick := 5 }
        "http://host/app.log" ⟨0⟩ [⟨7000000000⟩] emptySink stubDisk emptyWorld).ret = none := by
  decide

/-- C14, amended: in follow mode (`tick > 0`), once `initFetch` has
succeeded and the output is open: when the ticker period (`tick` seconds as
a 64-bit number of nanoseconds) is not positive, `tail` ends in a panic
before any call of `fetch`.  Otherwise `tail` makes the calls of the polling
loop, each call after the first starting when the receive from the ticker
returns; every call before the last succeeded; `tail` has ended exactly
when some call did not succeed, with the outcome of the last call, which is
not success; as long as every call succeeds `tail` has not ended and goes on
to the next call.  The wait after a call lasts at most one period; there is
no wait when a whole period has passed since the previous receive; and when
every call finishes within its own interval the calls start exactly one
period apart.  For `tick` up to 9223372036 the period is `tick` seconds. -/
theorem tail_follow (env : Env) (c : client) (resource : String) (now : Time)
    (later : List Time) (stdout : Sink) (disk : Disk) (w : World) (s : fetchState)
    (w1 : World) (htick : c.tick > 0)
    (hinit : initFetch env c ⟨"", 0, Time.zero, Time.zero⟩ resource w = (Outcome.ok (), s, w1))
    (hopen : c.outputFile = "" ∨ disk.createErr.lookup c.outputFile = none) :
    (c.tick ≤ 9223372036 → tickerPeriod c = c.tick * 1000000000) ∧
    (tickerPeriod c ≤ 0 →
      (tail env c resource now later stdout disk w).ret = some Outcome.panic ∧
      (tail env c resource now later stdout disk w).calls = []) ∧
    (0 < tickerPeriod c →
      (tail env c resource now later stdout disk w).calls
        = fetchTrace env c
            (now :: tickReadings now.instant (tickerPeriod c) now.instant now.instant later)
            s (tailOut c stdout disk) w1 ∧
      (∀ r ∈ (tail env c resource now later stdout disk w).calls.dropLast,
        r.err = Outcome.ok ()) ∧
      (∀ o, (tail env c resource now later stdout disk w).ret = some o →
        o ≠ Outcome.ok () ∧
        ∃ r, (tail env c resource now later stdout disk w).calls.getLast? = some r ∧
          r.err = o) ∧
      ((tail env c resource now later stdout disk w).ret = none ↔
        ∀ r ∈ (tail env c resource now later stdout disk w).calls, r.err = Outcome.ok ()) ∧
      ((tail env c resource now later stdout disk w).ret = none →
        (tail env c resource now later stdout disk w).calls.length = later.length + 1) ∧
      (∀ lastRecv ready : Int,
        ready ≤ tickWake now.instant (tickerPeriod c) lastRecv ready ∧
        tickWake now.instant (tickerPeriod c) lastRecv ready ≤ ready + tickerPeriod c) ∧
      (∀ lastRecv ready : Int, lastRecv + tickerPeriod c ≤ ready →
        tickWake now.instant (tickerPeriod c) lastRecv ready = ready) ∧
      (onTime now.instant (tickerPeriod c) 0 later →
        tickReadings now.instant (tickerPeriod c) now.instant now.instant later
          = tickGrid now.instant (tickerPeriod c) 0 later.length)) := by
  obtain ⟨h1, h2⟩ := tail_after_open env c resource now later stdout disk w s w1 hinit hopen
  have hmode : c.isFollowMode = true := by
    simp only [client.isFollowMode, decide_eq_true_eq]
    exact htick
  refine ⟨?_, ?_, ?_⟩
  · intro hle
    unfold tickerPeriod
    apply wrap64_of_inInt64
    constructor <;> omega
  · intro hp
    rw [h1, h2]
    simp [tailFetches, hmode, hp]
  · intro hp
    have hr : (tailFetches env c now later s (tailOut c stdout disk) w1)
        = (loopRet (fetchTrace env c
              (now :: tickReadings now.instant (tickerPeriod c) now.instant now.instant later)
              s (tailOut c stdout disk) w1),
            fetchTrace env c
              (now :: tickReadings now.instant (tickerPeriod c) now.instant now.instant later)
              s (tailOut c stdout disk) w1) := by
      simp [tailFetches, hmode, not_le.2 hp]
    rw [hr] at h1 h2
    rw [h1, h2]
    have hdl := fetchTrace_dropLast_ok env c
      (now :: tickReadings now.instant (tickerPeriod c) now.instant now.instant later)
      s (tailOut c stdout disk) w1
    have hiff := loopRet_none_iff _ hdl
    refine ⟨rfl, hdl, fun o ho => loopRet_some _ o ho, hiff, ?_,
      fun lastRecv ready => tickWake_bounds _ _ lastRecv ready hp,
      fun lastRecv ready h => tickWake_pending _ _ lastRecv ready hp h, ?_⟩
    · intro hn
      have := fetchTrace_length_of_ok env c _ s (tailOut c stdout disk) w1 (hiff.1 hn)
      simpa [tickReadings_length] using this
    · intro hon
      have := tickReadings_onTime now.instant (tickerPeriod c) hp later 0 hon
      simpa using this

theorem tail_follow_witness :
    (Outcome.error "404 Not Found" ≠ Outcome.ok () ∧
      ∃ r, (tail (scriptEnv [Except.ok (stubResponse 200 "200 OK" [] [65]),
          Except.ok (stubResponse 404 "404 Not Found" [] [])])
        { stubClient 0 true false with tick := 5, outputFile := "out.log" }
        "http://host/app.log" ⟨0⟩ [⟨1000000000⟩, ⟨6000000000⟩] emptySink stubDisk
        emptyWorld).calls.getLast? = some r ∧ r.err = Outcome.error "404 Not Found") ∧
    tickReadings (0 : Int)
        (tickerPeriod { stubClient 0 true false with tick := 5, outputFile := "out.log" })
        0 0 [⟨1000000000⟩, ⟨6000000000⟩]
      = tickGrid (0 : Int)
          (tickerPeriod { stubClient 0 true false with tick := 5, outputFile := "out.log" })
          0 [(⟨1000000000⟩ : Time), ⟨6000000000⟩].length ∧
    ((tail (scriptEnv [Except.ok (stubResponse 200 "200 OK" [] [65]),
          Except.ok (stubResponse 404 "404 Not Found" [] [])])
        { stubClient 0 true false with tick := 9223372037 }
        "http://host/app.log" ⟨0⟩ [⟨1000000000⟩] emptySink stubDisk
        emptyWorld).ret = some Outcome.panic ∧
     (tail (scriptEnv [Except.ok (stubResponse 200 "200 OK" [] [65]),
          Except.ok (stubResponse 404 "404 Not Found" [] [])])
        { stubClient 0 true false with tick := 9223372037 }
        "http://host/app.log" ⟨0⟩ [⟨1000000000⟩] emptySink stubDisk
        emptyWorld).calls = []) :=
  ⟨((tail_follow (scriptEnv [Except.ok (stubResponse 200 "200 OK" [] [65]),
          Except.ok (stubResponse 404 "404 Not Found" [] [])])
      { stubClient 0 true false with tick := 5, outputFile := "out.log" }
      "http://host/app.log" ⟨0⟩ [⟨1000000000⟩, ⟨6000000000⟩] emptySink stubDisk emptyWorld
      ⟨"http://host/app.log", 0, Time.zero, Time.zero⟩ emptyWorld
      (by decide) (by decide) (Or.inr (by decide))).2.2 (by decide)).2.2.1
      (Outcome.error "404 Not Found") (by decide),
   ((tail_follow (scriptEnv [Except.ok (stubResponse 200 "200 OK" [] [65]),
          Except.ok (stubResponse 404 "404 Not Found" [] [])])
      { stubClient 0 true false with tick := 5, outputFile := "out.log" }
      "http://host/app.log" ⟨0⟩ [⟨1000000000⟩, ⟨6000000000⟩] emptySink stubDisk emptyWorld
      ⟨"http://host/app.log", 0, Time.zero, Time.zero⟩ emptyWorld
      (by decide) (by decide) (Or.inr (by decide))).2.2 (by decide)).2.2.2.2.2.2.2
      ⟨by decide, by decide, by decide, by decide, trivial⟩,
   (tail_follow (scriptEnv [Except.ok (stubResponse 200 "200 OK" [] [65]),
          Except.ok (stubResponse 404 "404 Not Found" [] [])])
      { stubClient 0 true false with tick := 9223372037 }
      "http://host/app.log" ⟨0⟩ [⟨1000000000⟩] emptySink stubDisk emptyWorld
      ⟨"http://host/app.log", 0, Time.zero, Time.zero⟩ emptyWorld
      (by decide) (by decide) (Or.inl (by decide))).2.1 (by decide)⟩

/-! ## The offset over a run -/

theorem max_zero_nonneg (a : Int) : 0 ≤ max a 0 := by
  unfold max
  split <;> omega

theorem max_zero_inInt64 (a : Int) (h : inInt64 a) : inInt64 (max a 0) := by
  unfold max
  split
  · exact h
  · unfold inInt64; omega

/-- The offset `initFetch` leaves in the state. -/
theorem initFetch_offset_cases (env : Env) (c : client) (s0 : fetchState) (resource : String)
    (w : World) :
    (initFetch env c s0 resource w).2.1.offset = c.byteOffset ∨
    (initFetch env c s0 resource w).2.1.offset = 0 ∨
    ∃ size : Int,
      (initFetch env c s0 resource w).2.1.offset = max (wrap64 (size - c.byteOffset)) 0 := by
  unfold initFetch
  dsimp only
  split
  · exact Or.inl rfl
  · split
    · exact Or.inr (Or.inl rfl)
    · exact Or.inr (Or.inl rfl)
    · split
      · split
        · rename_i size _
          exact Or.inr (Or.inr ⟨size, rfl⟩)
        · exact Or.inr (Or.inl rfl)
      · exact Or.inr (Or.inl rfl)

/-- C15, as stated, fails: the accepted size specification
`+9223372036854775807` and a 200 response with a one-byte body; after
`initFetch` the offset is `9223372036854775807`, and after the single call
of `fetch` made by `tail` it is `-9223372036854775808`. -/
theorem tail_offset_negative :
    isOk (parseByteSize "+9223372036854775807".toList) = true ∧
    (tail (stubEnv (Except.ok (stubResponse 200 "200 OK" [] [65])))
        (stubClient 9223372036854775807 true false)
        "http://host/app.log" ⟨0⟩ [] emptySink stubDisk emptyWorld).ret = some (Outcome.ok ()) ∧
    (tail (stubEnv (Except.ok (stubResponse 200 "200 OK" [] [65])))
        (stubClient 9223372036854775807 true false)
        "http://host/app.log" ⟨0⟩ [] emptySink stubDisk emptyWorld).state.offset
      = -9223372036854775808 ∧
    ¬ ((0 : Int) ≤ -9223372036854775808) := by
  decide

/-- C15, amended: for every size specification whose magnitude is a
non-negative 64-bit value and every probe outcome, the offset is `>= 0`
after `initFetch`; and for every sequence of `fetch` calls from that state
in which the initial offset plus the number of bytes written during the
whole sequence does not exceed the largest 64-bit integer, the offset is
`>= 0` after each call. -/
theorem offset_nonneg (env : Env) (c : client) (s0 : fetchState) (resource : String)
    (w : World) (hrange : inInt64 c.byteOffset) (hmag : 0 ≤ c.byteOffset) :
    0 ≤ (initFetch env c s0 resource w).2.1.offset ∧
    ∀ (times : List Time) (out : Sink) (w1 : World),
      (initFetch env c s0 resource w).2.1.offset
          + ((finalOut (fetchTrace env c times (initFetch env c s0 resource w).2.1 out w1)
              out).written.length : Int)
          - (out.written.length : Int) ≤ 9223372036854775807 →
      ∀ r ∈ fetchTrace env c times (initFetch env c s0 resource w).2.1 out w1,
        0 ≤ r.state.offset := by
  have h0 : 0 ≤ (initFetch env c s0 resource w).2.1.offset ∧
      inInt64 (initFetch env c s0 resource w).2.1.offset := by
    rcases initFetch_offset_cases env c s0 resource w with h | h | ⟨size, h⟩
    · rw [h]; exact ⟨hmag, hrange⟩
    · rw [h]; exact ⟨le_refl 0, by unfold inInt64; omega⟩
    · rw [h]; exact ⟨max_zero_nonneg _, max_zero_inInt64 _ (wrap64_inInt64 _)⟩
  refine ⟨h0.1, ?_⟩
  intro times out w1 hfit r hr
  have hchain := fetchTrace_offsets_chain env c times _ out w1 h0.2 hfit
  have hpw := List.chain_iff_pairwise.1 hchain
  rw [List.pairwise_cons] at hpw
  have := hpw.1 r.state.offset (List.mem_map.2 ⟨r, hr, rfl⟩)
  omega

theorem offset_nonneg_witness :
    0 ≤ (initFetch (stubEnv (Except.ok (stubResponse 200 "200 OK"
        [("Content-Length", "2048")] [65, 66])))
      (stubClient 1024 false false) ⟨"", 0, Time.zero, Time.zero⟩ "http://host/app.log"
      emptyWorld).2.1.offset ∧
    0 ≤ (fetch (stubEnv (Except.ok (stubResponse 200 "200 OK"
        [("Content-Length", "2048")] [65, 66])))
      (stubClient 1024 false false) ⟨0⟩
      (initFetch (stubEnv (Except.ok (stubResponse 200 "200 OK"
        [("Content-Length", "2048")] [65, 66])))
        (stubClient 1024 false false) ⟨"", 0, Time.zero, Time.zero⟩ "http://host/app.log"
        emptyWorld).2.1 emptySink emptyWorld).state.offset :=
  ⟨(offset_nonneg (stubEnv (Except.ok (stubResponse 200 "200 OK"
        [("Content-Length", "2048")] [65, 66])))
      (stubClient 1024 false false) ⟨"", 0, Time.zero, Time.zero⟩ "http://host/app.log"
      emptyWorld (by decide) (by decide)).1,
   (offset_nonneg (stubEnv (Except.ok (stubResponse 200 "200 OK"
        [("Content-Length", "2048")] [65, 66])))
      (stubClient 1024 false false) ⟨"", 0, Time.zero, Time.zero⟩ "http://host/app.log"
      emptyWorld (by decide) (by decide)).2 [⟨0⟩] emptySink emptyWorld (by decide) _
      (List.mem_cons_self _ _)⟩

/-! ## Date parsing -/

/-- C16: `parseHttpTime` returns the RFC 1123 parse if it succeeds, else the
RFC 850 parse if it succeeds, else the outcome of the ANSI C parse; it fails
exactly when all three parses fail. -/
theorem parseHttpTime_order (env : Env) (v : String) :
    (∀ t, env.parseRFC1123 v = Except.ok t → parseHttpTime env v = Except.ok t) ∧
    (∀ e t, env.parseRFC1123 v = Except.error e → env.parseRFC850 v = Except.ok t →
      parseHttpTime env v = Except.ok t) ∧
    (∀ e1 e2, env.parseRFC1123 v = Except.error e1 → env.parseRFC850 v = Except.error e2 →
      parseHttpTime env v = env.parseANSIC v) ∧
    (isOk (parseHttpTime env v) = false ↔
      (isOk (env.parseRFC1123 v) = false ∧ isOk (env.parseRFC850 v) = false ∧
        isOk (env.parseANSIC v) = false)) := by
  refine ⟨?_, ?_, ?_, ?_⟩
  · intro t h; simp [parseHttpTime, h]
  · intro e t h1 h2; simp [parseHttpTime, h1, h2]
  · intro e1 e2 h1 h2; simp [parseHttpTime, h1, h2]
  · unfold parseHttpTime
    cases h1 : env.parseRFC1123 v with
    | ok t => simp [isOk]
    | error e1 =>
      cases h2 : env.parseRFC850 v with
      | ok t => simp [isOk]
      | error e2 => simp [isOk]

theorem parseHttpTime_order_witness :
    parseHttpTime layoutEnv "x" = Except.ok ⟨1⟩ ∧
    parseHttpTime layoutEnv "y" = Except.ok ⟨2⟩ ∧
    parseHttpTime layoutEnv "z" = layoutEnv.parseANSIC "z" :=
  ⟨(parseHttpTime_order layoutEnv "x").1 ⟨1⟩ (by decide),
   (parseHttpTime_order layoutEnv "y").2.1 "not RFC1123" ⟨2⟩ (by decide) (by decide),
   (parseHttpTime_order layoutEnv "z").2.2.1 "not RFC1123" "not RFC850" (by decide)
     (by decide)⟩

/-! ## The output file -/

/-- C17, evaluated at the failing input: the output file `out.log` holds
the bytes 1, 2, 3 before the run and the single fetch writes the bytes 65,
66.  After the run the file holds 65, 66 only: `os.Create` has truncated it,
and the prior content is gone. -/
theorem tail_truncates_output_file :
    stubDisk.read "out.log" = some [1, 2, 3] ∧
    (tail (stubEnv (Except.ok (stubResponse 200 "200 OK" [] [65, 66])))
        { stubClient 0 true false with outputFile := "out.log" }
        "http://host/app.log" ⟨0⟩ [] emptySink stubDisk emptyWorld).ret = some (Outcome.ok ()) ∧
    (tail (stubEnv (Except.ok (stubResponse 200 "200 OK" [] [65, 66])))
        { stubClient 0 true false with outputFile := "out.log" }
        "http://host/app.log" ⟨0⟩ [] emptySink stubDisk emptyWorld).disk.read "out.log"
      = some [65, 66] ∧
    (tail (stubEnv (Except.ok (stubResponse 200 "200 OK" [] [65, 66])))
        { stubClient 0 true false with outputFile := "out.log" }
        "http://host/app.log" ⟨0⟩ [] emptySink stubDisk emptyWorld).disk.read "out.log"
      ≠ some ([1, 2, 3] ++ [65, 66]) := by
  decide

/-! ## Timestamps -/

theorem updateTime_parsed (env : Env) (resp : Response) (key : String) (old t : Time)
    (hne : resp.header.Get key ≠ "")
    (hp : parseHttpTime env (resp.header.Get key) = Except.ok t) :
    updateTime env resp key old = t := by
  simp [updateTime, hne, hp]

theorem updateTime_kept (env : Env) (resp : Response) (key : String) (old : Time)
    (h : resp.header.find key = none ∨
      ∃ e, parseHttpTime env (resp.header.Get key) = Except.error e) :
    updateTime env resp key old = old := by
  unfold updateTime
  dsimp only
  rcases h with h | ⟨e, h⟩
  · have : resp.header.Get key = "" := by simp [Header.Get, h]
    simp [this]
  · rw [h]
    split <;> rfl

/-- The state and the returned error after a 2xx response. -/
theorem fetch_2xx (env : Env) (c : client) (now : Time) (s : fetchState) (out : Sink)
    (w : World) (resp : Response)
    (hexp : (!s.expires.IsZero && now.Before s.expires) = false)
    (hreq : env.newRequestErr "GET" s.resource = none)
    (hdo : env.Do w.requests (buildRequest env c "GET" s) = Except.ok resp)
    (h2xx : 200 ≤ resp.statusCode ∧ resp.statusCode < 300) :
    (fetch env c now s out w).state
      = ⟨s.resource, wrap64 (s.offset + ((ioCopy out resp.body).1 : Int)),
          updateTime env resp "Last-Modified" s.lastModified,
          updateTime env resp "Expires" s.expires⟩ ∧
    (fetch env c now s out w).out = (ioCopy out resp.body).2.2 ∧
    (fetch env c now s out w).err
      = (match (ioCopy out resp.body).2.1 with
         | none => Outcome.ok ()
         | some e => Outcome.error e) := by
  have hf := fetch_response env c now s out w resp hexp hreq hdo
  rw [if_pos (show resp.statusCode ≥ 200 ∧ resp.statusCode < 300 from h2xx)] at hf
  rw [hf]
  cases (ioCopy out resp.body).2.1 with
  | none => exact ⟨rfl, rfl, rfl⟩
  | some e => exact ⟨rfl, rfl, rfl⟩

theorem buildRequest_ifModifiedSince (env : Env) (c : client) (method : String)
    (s : fetchState) :
    (buildRequest env c method s).header.find "If-Modified-Since"
      = if s.lastModified.IsZero then none else some (formatHttpTime env s.lastModified) := by
  have h1 : (if c.user ≠ "" then
      Header.empty.Set "Authorization" (env.basicAuth c.user c.password)
      else Header.empty).find "If-Modified-Since" = none := by
    split
    · rw [Header.find_Set_other _ _ _ _ (by decide)]; rfl
    · rfl
  have h2 : ∀ h : Header, h.find "If-Modified-Since" = none →
      (if c.userAgent ≠ "" then h.Set "User-Agent" c.userAgent else h).find "If-Modified-Since"
        = none := by
    intro h hh
    split
    · rw [Header.find_Set_other _ _ _ _ (by decide)]; exact hh
    · exact hh
  have h3 : ∀ h : Header, h.find "If-Modified-Since" = none →
      (if !s.lastModified.IsZero then
        h.Set "If-Modified-Since" (formatHttpTime env s.lastModified) else h).find
          "If-Modified-Since"
        = if s.lastModified.IsZero then none else some (formatHttpTime env s.lastModified) := by
    intro h hh
    cases hz : s.lastModified.IsZero with
    | true => simpa using hh
    | false => simpa using Header.find_Set_same _ _ _
  have h4 : ∀ h : Header,
      (if s.offset > 0 then h.Set "Range" ("bytes=" ++ FormatInt s.offset ++ "-") else h).find
          "If-Modified-Since" = h.find "If-Modified-Since" := by
    intro h
    split
    · exact Header.find_Set_other _ _ _ _ (by decide)
    · rfl
  simp only [buildRequest]
  rw [h4]
  exact h3 _ (h2 _ h1)

/-- C18: on a 2xx response, `lastModified` becomes the parsed value of the
`Last-Modified` header when the header carries a value that parses, and
keeps its previous value when the header is absent or does not parse;
`expires` follows the same rule with the `Expires` header, whatever
`Last-Modified` is; and a request carries `If-Modified-Since` exactly when
`lastModified` of the state it is built from is set (not the zero time). -/
theorem fetch_2xx_timestamps (env : Env) (c : client) (now : Time) (s : fetchState)
    (out : Sink) (w : World) (resp : Response)
    (hexp : (!s.expires.IsZero && now.Before s.expires) = false)
    (hreq : env.newRequestErr "GET" s.resource = none)
    (hdo : env.Do w.requests (buildRequest env c "GET" s) = Except.ok resp)
    (h2xx : 200 ≤ resp.statusCode ∧ resp.statusCode < 300) :
    (∀ t, resp.header.Get "Last-Modified" ≠ "" →
      parseHttpTime env (resp.header.Get "Last-Modified") = Except.ok t →
      (fetch env c now s out w).state.lastModified = t) ∧
    ((resp.header.find "Last-Modified" = none ∨
        ∃ e, parseHttpTime env (resp.header.Get "Last-Modified") = Except.error e) →
      (fetch env c now s out w).state.lastModified = s.lastModified) ∧
    (∀ t, resp.header.Get "Expires" ≠ "" →
      parseHttpTime env (resp.header.Get "Expires") = Except.ok t →
      (fetch env c now s out w).state.expires = t) ∧
    ((resp.header.find "Expires" = none ∨
        ∃ e, parseHttpTime env (resp.header.Get "Expires") = Except.error e) →
      (fetch env c now s out w).state.expires = s.expires) ∧
    (∀ (method : String) (s1 : fetchState),
      (buildRequest env c method s1).header.find "If-Modified-Since" ≠ none ↔
        s1.lastModified.IsZero = false) := by
  obtain ⟨hst, _, _⟩ := fetch_2xx env c now s out w resp hexp hreq hdo h2xx
  rw [hst]
  refine ⟨?_, ?_, ?_, ?_, ?_⟩
  · intro t hne hp; exact updateTime_parsed env resp _ _ t hne hp
  · intro h; exact updateTime_kept env resp _ _ h
  · intro t hne hp; exact updateTime_parsed env resp _ _ t hne hp
  · intro h; exact updateTime_kept env resp _ _ h
  · intro method s1
    rw [buildRequest_ifModifiedSince]
    cases s1.lastModified.IsZero <;> simp

theorem fetch_2xx_timestamps_witness :
    (fetch (stubEnv (Except.ok (stubResponse 200 "200 OK"
        [("Last-Modified", "77"), ("Expires", "soon")] [65])))
      (stubClient 0 true false) ⟨10⟩ ⟨"http://host/app.log", 0, ⟨5⟩, ⟨9⟩⟩
      emptySink emptyWorld).state.lastModified = ⟨77⟩ ∧
    (fetch (stubEnv (Except.ok (stubResponse 200 "200 OK"
        [("Last-Modified", "77"), ("Expires", "soon")] [65])))
      (stubClient 0 true false) ⟨10⟩ ⟨"http://host/app.log", 0, ⟨5⟩, ⟨9⟩⟩
      emptySink emptyWorld).state.expires = ⟨9⟩ :=
  ⟨(fetch_2xx_timestamps (stubEnv (Except.ok (stubResponse 200 "200 OK"
        [("Last-Modified", "77"), ("Expires", "soon")] [65])))
      (stubClient 0 true false) ⟨10⟩ ⟨"http://host/app.log", 0, ⟨5⟩, ⟨9⟩⟩
      emptySink emptyWorld
      (stubResponse 200 "200 OK" [("Last-Modified", "77"), ("Expires", "soon")] [65])
      (by decide) (by decide) (by decide) (by decide)).1 ⟨77⟩ (by decide) (by decide),
   (fetch_2xx_timestamps (stubEnv (Except.ok (stubResponse 200 "200 OK"
        [("Last-Modified", "77"), ("Expires", "soon")] [65])))
      (stubClient 0 true false) ⟨10⟩ ⟨"http://host/app.log", 0, ⟨5⟩, ⟨9⟩⟩
      emptySink emptyWorld
      (stubResponse 200 "200 OK" [("Last-Modified", "77"), ("Expires", "soon")] [65])
      (by decide) (by decide) (by decide) (by decide)).2.2.2.1
      (Or.inr ⟨"cannot parse", by decide⟩)⟩

/-! ## The probe and the status code -/

/-- C19: `initFetch` does not look at the status code of the probe
response: two probes that receive responses with the same `Content-Length`
value, whatever their status codes and other fields, both succeed and
leave the same state, in particular the same offset. -/
theorem initFetch_ignores_status (env1 env2 : Env) (c : client) (s1 s2 : fetchState)
    (resource : String) (w1 w2 : World) (resp1 resp2 : Response)
    (hfs : c.byteOffsetFromStart = false)
    (hreq1 : env1.newRequestErr "HEAD" resource = none)
    (hreq2 : env2.newRequestErr "HEAD" resource = none)
    (hdo1 : env1.Do w1.requests (buildRequest env1 c "HEAD" ⟨resource, 0, Time.zero, Time.zero⟩)
      = Except.ok resp1)
    (hdo2 : env2.Do w2.requests (buildRequest env2 c "HEAD" ⟨resource, 0, Time.zero, Time.zero⟩)
      = Except.ok resp2)
    (hcl : resp1.header.Get "Content-Length" = resp2.header.Get "Content-Length") :
    (initFetch env1 c s1 resource w1).1 = Outcome.ok () ∧
    (initFetch env2 c s2 resource w2).1 = Outcome.ok () ∧
    (initFetch env1 c s1 resource w1).2.1 = (initFetch env2 c s2 resource w2).2.1 := by
  obtain ⟨ha, hb⟩ := initFetch_response env1 c s1 resource w1 resp1 hfs hreq1 hdo1
  obtain ⟨hc, hd⟩ := initFetch_response env2 c s2 resource w2 resp2 hfs hreq2 hdo2
  refine ⟨ha, hc, ?_⟩
  rw [hb, hd, hcl]

theorem initFetch_ignores_status_witness :
    (initFetch (stubEnv (Except.ok (stubResponse 200 "200 OK" [("Content-Length", "2048")] [])))
        (stubClient 1024 false false) ⟨"", 0, Time.zero, Time.zero⟩ "http://host/app.log"
        emptyWorld).1 = Outcome.ok () ∧
    (initFetch (stubEnv (Except.ok (stubResponse 404 "404 Not Found"
          [("Content-Length", "2048")] [])))
        (stubClient 1024 false false) ⟨"", 0, Time.zero, Time.zero⟩ "http://host/app.log"
        emptyWorld).1 = Outcome.ok () ∧
    (initFetch (stubEnv (Except.ok (stubResponse 200 "200 OK" [("Content-Length", "2048")] [])))
        (stubClient 1024 false false) ⟨"", 0, Time.zero, Time.zero⟩ "http://host/app.log"
        emptyWorld).2.1
      = (initFetch (stubEnv (Except.ok (stubResponse 404 "404 Not Found"
          [("Content-Length", "2048")] [])))
        (stubClient 1024 false false) ⟨"", 0, Time.zero, Time.zero⟩ "http://host/app.log"
        emptyWorld).2.1 :=
  initFetch_ignores_status
    (stubEnv (Except.ok (stubResponse 200 "200 OK" [("Content-Length", "2048")] [])))
    (stubEnv (Except.ok (stubResponse 404 "404 Not Found" [("Content-Length", "2048")] [])))
    (stubClient 1024 false false) ⟨"", 0, Time.zero, Time.zero⟩ ⟨"", 0, Time.zero, Time.zero⟩
    "http://host/app.log" emptyWorld emptyWorld
    (stubResponse 200 "200 OK" [("Content-Length", "2048")] [])
    (stubResponse 404 "404 Not Found" [("Content-Length", "2048")] [])
    (by decide) (by decide) (by decide) (by decide) (by decide) (by decide)

/-! ## A failing body copy -/

/-- C20, as stated, fails: the offset `9223372036854775807`, a 200 response
with a two-byte body and a writer that fails after one byte.  `fetch`
returns the copy error after one byte has been written, and the offset is
`-9223372036854775808`, not the old offset advanced by one. -/
theorem fetch_copy_error_offset_wraps :
    (ioCopy ⟨[], some (1, "disk full")⟩ (stubResponse 200 "200 OK" [] [65, 66]).body).1 = 1 ∧
    (fetch (stubEnv (Except.ok (stubResponse 200 "200 OK" [] [65, 66])))
        (stubClient 9223372036854775807 true false) ⟨0⟩
        ⟨"http://host/app.log", 9223372036854775807, Time.zero, Time.zero⟩
        ⟨[], some (1, "disk full")⟩ emptyWorld).err = Outcome.error "disk full" ∧
    (fetch (stubEnv (Except.ok (stubResponse 200 "200 OK" [] [65, 66])))
        (stubClient 9223372036854775807 true false) ⟨0⟩
        ⟨"http://host/app.log", 9223372036854775807, Time.zero, Time.zero⟩
        ⟨[], some (1, "disk full")⟩ emptyWorld).out.written = [65] ∧
    (fetch (stubEnv (Except.ok (stubResponse 200 "200 OK" [] [65, 66])))
        (stubClient 9223372036854775807 true false) ⟨0⟩
        ⟨"http://host/app.log", 9223372036854775807, Time.zero, Time.zero⟩
        ⟨[], some (1, "disk full")⟩ emptyWorld).state.offset = -9223372036854775808 ∧
    (-9223372036854775808 : Int) ≠ 9223372036854775807 + 1 := by
  decide

/-- C20, amended: when the copy of a 2xx response's body fails with an
error after `n` bytes have been written, and the old offset plus `n` does
not exceed the largest 64-bit integer, `fetch` returns the copy error, the
sink holds the `n` bytes, the offset has been advanced by exactly `n`, and
`lastModified` and `expires` have been replaced by the values of the
response's `Last-Modified` and `Expires` headers that parse. -/
theorem fetch_copy_error (env : Env) (c : client) (now : Time) (s : fetchState) (out : Sink)
    (w : World) (resp : Response) (e : String)
    (hs : inInt64 s.offset)
    (hexp : (!s.expires.IsZero && now.Before s.expires) = false)
    (hreq : env.newRequestErr "GET" s.resource = none)
    (hdo : env.Do w.requests (buildRequest env c "GET" s) = Except.ok resp)
    (h2xx : 200 ≤ resp.statusCode ∧ resp.statusCode < 300)
    (hcopy : (ioCopy out resp.body).2.1 = some e)
    (hfit : s.offset + ((ioCopy out resp.body).1 : Int) ≤ 9223372036854775807) :
    (fetch env c now s out w).err = Outcome.error e ∧
    (fetch env c now s out w).out.written.length
      = out.written.length + (ioCopy out resp.body).1 ∧
    (fetch env c now s out w).state.offset = s.offset + ((ioCopy out resp.body).1 : Int) ∧
    (∀ t, resp.header.Get "Last-Modified" ≠ "" →
      parseHttpTime env (resp.header.Get "Last-Modified") = Except.ok t →
      (fetch env c now s out w).state.lastModified = t) ∧
    (∀ t, resp.header.Get "Expires" ≠ "" →
      parseHttpTime env (resp.header.Get "Expires") = Except.ok t →
      (fetch env c now s out w).state.expires = t) := by
  obtain ⟨hst, hout, herr⟩ := fetch_2xx env c now s out w resp hexp hreq hdo h2xx
  have hw : wrap64 (s.offset + ((ioCopy out resp.body).1 : Int))
      = s.offset + ((ioCopy out resp.body).1 : Int) := by
    apply wrap64_of_inInt64
    have := hs.1
    constructor <;> omega
  rw [hcopy] at herr
  rw [hst, hout, herr]
  refine ⟨rfl, ioCopy_written_length out resp.body, hw, ?_, ?_⟩
  · intro t hne hp; exact updateTime_parsed env resp _ _ t hne hp
  · intro t hne hp; exact updateTime_parsed env resp _ _ t hne hp

theorem fetch_copy_error_witness :
    (fetch (stubEnv (Except.ok (stubResponse 200 "200 OK"
        [("Last-Modified", "77"), ("Expires", "99")] [65, 66, 67])))
      (stubClient 0 true false) ⟨10⟩ ⟨"http://host/app.log", 40, ⟨5⟩, ⟨9⟩⟩
      ⟨[7], some (2, "disk full")⟩ emptyWorld).err = Outcome.error "disk full" ∧
    (fetch (stubEnv (Except.ok (stubResponse 200 "200 OK"
        [("Last-Modified", "77"), ("Expires", "99")] [65, 66, 67])))
      (stubClient 0 true false) ⟨10⟩ ⟨"http://host/app.log", 40, ⟨5⟩, ⟨9⟩⟩
      ⟨[7], some (2, "disk full")⟩ emptyWorld).state.lastModified = ⟨77⟩ :=
  ⟨(fetch_copy_error (stubEnv (Except.ok (stubResponse 200 "200 OK"
        [("Last-Modified", "77"), ("Expires", "99")] [65, 66, 67])))
      (stubClient 0 true false) ⟨10⟩ ⟨"http://host/app.log", 40, ⟨5⟩, ⟨9⟩⟩
      ⟨[7], some (2, "disk full")⟩ emptyWorld
      (stubResponse 200 "200 OK" [("Last-Modified", "77"), ("Expires", "99")] [65, 66, 67])
      "disk full" (by decide) (by decide) (by decide) (by decide) (by decide) (by decide)
      (by decide)).1,
   (fetch_copy_error (stubEnv (Except.ok (stubResponse 200 "200 OK"
        [("Last-Modified", "77"), ("Expires", "99")] [65, 66, 67])))
      (stubClient 0 true false) ⟨10⟩ ⟨"http://host/app.log", 40, ⟨5⟩, ⟨9⟩⟩
      ⟨[7], some (2, "disk full")⟩ emptyWorld
      (stubResponse 200 "200 OK" [("Last-Modified", "77"), ("Expires", "99")] [65, 66, 67])
      "disk full" (by decide) (by decide) (by decide) (by decide) (by decide) (by decide)
      (by decide)).2.2.2.1 ⟨77⟩ (by decide) (by decide)⟩

end Rtail
